import Mathlib

/-!
# A verification development for the rs9p 9P2000.L server library

Shallow embedding of the library's wire codec (`src/serialize.rs`,
`src/fcall.rs`), errno layer (`src/error.rs`) and request dispatcher
(`src/srv.rs`), together with theorems about the codec round-trip, the
frame size prefix, the default `version` handshake, the fid-table
lifecycle and the errno mapping.

Byte streams are modelled as `List Nat` (each element a byte value of the
stream); machine integers are `Nat` with explicit `% 2^w` at the points
where the Rust source casts or wraps. Fallible operations return `Except`.
-/

set_option maxHeartbeats 1600000

namespace Rs9p

/-- A byte stream / byte string (each element is one byte of the stream). -/
abbrev Bytes := List Nat

/-- Little-endian encoding of `n` into exactly `w` bytes, mirroring
`byteorder::LittleEndian` writes; values that do not fit in `w` bytes are
truncated modulo `2^(8*w)`, exactly as a Rust `as uN` cast would. -/
def toLE : Nat → Nat → Bytes
  | 0, _ => []
  | w + 1, n => n % 256 :: toLE w (n / 256)

/-- Little-endian reading of a byte list, mirroring `byteorder` reads. -/
def fromLE : Bytes → Nat
  | [] => 0
  | b :: bs => b + 256 * fromLE bs

/-- Is `c` a UTF-8 continuation byte (`0x80..=0xBF`)? -/
def isCont (c : Nat) : Bool := 128 ≤ c && c ≤ 191

/-- UTF-8 validity of a byte sequence, as checked by `String::from_utf8`
in `impl Decodable for String` (RFC 3629 well-formed sequences). -/
def isValidUtf8 : Bytes → Bool
  | [] => true
  | b :: rest =>
    if b ≤ 127 then isValidUtf8 rest
    else match rest with
      | [] => false
      | c2 :: r2 =>
        if 194 ≤ b && b ≤ 223 then isCont c2 && isValidUtf8 r2
        else match r2 with
          | [] => false
          | c3 :: r3 =>
            if b == 224 then (160 ≤ c2 && c2 ≤ 191) && isCont c3 && isValidUtf8 r3
            else if (225 ≤ b && b ≤ 236) || b == 238 || b == 239 then
              isCont c2 && isCont c3 && isValidUtf8 r3
            else if b == 237 then (128 ≤ c2 && c2 ≤ 159) && isCont c3 && isValidUtf8 r3
            else match r3 with
              | [] => false
              | c4 :: r4 =>
                if b == 240 then
                  (144 ≤ c2 && c2 ≤ 191) && isCont c3 && isCont c4 && isValidUtf8 r4
                else if 241 ≤ b && b ≤ 243 then
                  isCont c2 && isCont c3 && isCont c4 && isValidUtf8 r4
                else if b == 244 then
                  (128 ≤ c2 && c2 ≤ 143) && isCont c3 && isCont c4 && isValidUtf8 r4
                else false

/-- The protocol version string `"9P2000.L"` (`P92000L` in `fcall.rs`),
as its UTF-8 bytes. -/
def p92000L : Bytes := [57, 80, 50, 48, 48, 48, 46, 76]

/-! ## Wire data model (`src/fcall.rs`, revision matching `serialize.rs`) -/

/-- Server-side unique file identity (`Qid` in `fcall.rs`):
`typ: u8` (bit-set), `version: u32`, `path: u64`. -/
structure Qid where
  typ : Nat
  version : Nat
  path : Nat
  deriving Repr, DecidableEq

/-- `Time { sec, nsec : u64 }`. -/
structure Time where
  sec : Nat
  nsec : Nat
  deriving Repr, DecidableEq

/-- File attributes (`Stat` in `fcall.rs`, 9P2000.L form). -/
structure Stat where
  mode : Nat
  uid : Nat
  gid : Nat
  nlink : Nat
  rdev : Nat
  size : Nat
  blksize : Nat
  blocks : Nat
  atime : Time
  mtime : Time
  ctime : Time
  deriving Repr, DecidableEq

/-- Set-attributes payload of `Tsetattr` (`SetAttr` in `fcall.rs`):
`mode, uid, gid : u32`, `size : u64`, `atime, mtime : Time`, in the field
order used by `impl Encodable for SetAttr`. -/
structure SetAttr where
  mode : Nat
  uid : Nat
  gid : Nat
  size : Nat
  atime : Time
  mtime : Time
  deriving Repr, DecidableEq

/-- Filesystem statistics (`Statfs` in `fcall.rs`). -/
structure Statfs where
  typ : Nat
  bsize : Nat
  blocks : Nat
  bfree : Nat
  bavail : Nat
  files : Nat
  ffree : Nat
  fsid : Nat
  namelen : Nat
  deriving Repr, DecidableEq

/-- Directory entry used in `Rreaddir` (`DirEntry` in `fcall.rs`). -/
structure DirEntry where
  qid : Qid
  offset : Nat
  typ : Nat
  name : Bytes
  deriving Repr, DecidableEq

/-- File lock request (`Flock`, revision matching `serialize.rs`): fields
`typ: u8` (LockType bits), `flags: u32` (LockFlag bits), `start, length:
u64`, `proc_id: u32`, `client_id: String`. -/
structure Flock where
  typ : Nat
  flags : Nat
  start : Nat
  length : Nat
  proc_id : Nat
  client_id : Bytes
  deriving Repr, DecidableEq

/-- Lock query (`Getlock`, revision matching `serialize.rs`): fields
`typ: u8`, `start, length: u64`, `proc_id: u32`, `client_id: String`. -/
structure Getlock where
  typ : Nat
  start : Nat
  length : Nat
  proc_id : Nat
  client_id : Bytes
  deriving Repr, DecidableEq

/-- Message type wire codes (`MsgType` in `fcall.rs`), with `toU8` giving
the `as u8` discriminant. -/
inductive MsgType where
  | Tlerror | Rlerror
  | Tstatfs | Rstatfs
  | Tlopen | Rlopen
  | Tlcreate | Rlcreate
  | Tsymlink | Rsymlink
  | Tmknod | Rmknod
  | Trename | Rrename
  | Treadlink | Rreadlink
  | Tgetattr | Rgetattr
  | Tsetattr | Rsetattr
  | Txattrwalk | Rxattrwalk
  | Txattrcreate | Rxattrcreate
  | Treaddir | Rreaddir
  | Tfsync | Rfsync
  | Tlock | Rlock
  | Tgetlock | Rgetlock
  | Tlink | Rlink
  | Tmkdir | Rmkdir
  | Trenameat | Rrenameat
  | Tunlinkat | Runlinkat
  | Tversion | Rversion
  | Tauth | Rauth
  | Tattach | Rattach
  | Tflush | Rflush
  | Twalk | Rwalk
  | Tread | Rread
  | Twrite | Rwrite
  | Tclunk | Rclunk
  | Tremove | Rremove
  deriving Repr, DecidableEq

/-- The numeric discriminant of each message type (`MsgType as u8`). -/
def MsgType.toU8 : MsgType → Nat
  | .Tlerror => 6 | .Rlerror => 7
  | .Tstatfs => 8 | .Rstatfs => 9
  | .Tlopen => 12 | .Rlopen => 13
  | .Tlcreate => 14 | .Rlcreate => 15
  | .Tsymlink => 16 | .Rsymlink => 17
  | .Tmknod => 18 | .Rmknod => 19
  | .Trename => 20 | .Rrename => 21
  | .Treadlink => 22 | .Rreadlink => 23
  | .Tgetattr => 24 | .Rgetattr => 25
  | .Tsetattr => 26 | .Rsetattr => 27
  | .Txattrwalk => 30 | .Rxattrwalk => 31
  | .Txattrcreate => 32 | .Rxattrcreate => 33
  | .Treaddir => 40 | .Rreaddir => 41
  | .Tfsync => 50 | .Rfsync => 51
  | .Tlock => 52 | .Rlock => 53
  | .Tgetlock => 54 | .Rgetlock => 55
  | .Tlink => 70 | .Rlink => 71
  | .Tmkdir => 72 | .Rmkdir => 73
  | .Trenameat => 74 | .Rrenameat => 75
  | .Tunlinkat => 76 | .Runlinkat => 77
  | .Tversion => 100 | .Rversion => 101
  | .Tauth => 102 | .Rauth => 103
  | .Tattach => 104 | .Rattach => 105
  | .Tflush => 108 | .Rflush => 109
  | .Twalk => 110 | .Rwalk => 111
  | .Tread => 116 | .Rread => 117
  | .Twrite => 118 | .Rwrite => 119
  | .Tclunk => 120 | .Rclunk => 121
  | .Tremove => 122 | .Rremove => 123

/-- `MsgType::from_u8` (via `enum_from_primitive`): the partial inverse
of the discriminant map. -/
def MsgType.fromU8 (n : Nat) : Option MsgType :=
  match n with
  | 6 => some .Tlerror | 7 => some .Rlerror
  | 8 => some .Tstatfs | 9 => some .Rstatfs
  | 12 => some .Tlopen | 13 => some .Rlopen
  | 14 => some .Tlcreate | 15 => some .Rlcreate
  | 16 => some .Tsymlink | 17 => some .Rsymlink
  | 18 => some .Tmknod | 19 => some .Rmknod
  | 20 => some .Trename | 21 => some .Rrename
  | 22 => some .Treadlink | 23 => some .Rreadlink
  | 24 => some .Tgetattr | 25 => some .Rgetattr
  | 26 => some .Tsetattr | 27 => some .Rsetattr
  | 30 => some .Txattrwalk | 31 => some .Rxattrwalk
  | 32 => some .Txattrcreate | 33 => some .Rxattrcreate
  | 40 => some .Treaddir | 41 => some .Rreaddir
  | 50 => some .Tfsync | 51 => some .Rfsync
  | 52 => some .Tlock | 53 => some .Rlock
  | 54 => some .Tgetlock | 55 => some .Rgetlock
  | 70 => some .Tlink | 71 => some .Rlink
  | 72 => some .Tmkdir | 73 => some .Rmkdir
  | 74 => some .Trenameat | 75 => some .Rrenameat
  | 76 => some .Tunlinkat | 77 => some .Runlinkat
  | 100 => some .Tversion | 101 => some .Rversion
  | 102 => some .Tauth | 103 => some .Rauth
  | 104 => some .Tattach | 105 => some .Rattach
  | 108 => some .Tflush | 109 => some .Rflush
  | 110 => some .Twalk | 111 => some .Rwalk
  | 116 => some .Tread | 117 => some .Rread
  | 118 => some .Twrite | 119 => some .Rwrite
  | 120 => some .Tclunk | 121 => some .Rclunk
  | 122 => some .Tremove | 123 => some .Rremove
  | _ => none

/-- The 9P message body (`Fcall` in `fcall.rs`, revision matching
`serialize.rs`): one variant per message kind, with the field names and
order of the source. Strings are byte lists, `Data` payloads byte lists,
bit-mask fields plain numbers carrying the bits. -/
inductive Fcall where
  | Rlerror (ecode : Nat)
  | Tstatfs (fid : Nat)
  | Rstatfs (statfs : Statfs)
  | Tlopen (fid flags : Nat)
  | Rlopen (qid : Qid) (iounit : Nat)
  | Tlcreate (fid : Nat) (name : Bytes) (flags mode gid : Nat)
  | Rlcreate (qid : Qid) (iounit : Nat)
  | Tsymlink (fid : Nat) (name symtgt : Bytes) (gid : Nat)
  | Rsymlink (qid : Qid)
  | Tmknod (dfid : Nat) (name : Bytes) (mode major minor gid : Nat)
  | Rmknod (qid : Qid)
  | Trename (fid dfid : Nat) (name : Bytes)
  | Rrename
  | Treadlink (fid : Nat)
  | Rreadlink (target : Bytes)
  | Tgetattr (fid req_mask : Nat)
  | Rgetattr (valid : Nat) (qid : Qid) (stat : Stat)
  | Tsetattr (fid valid : Nat) (stat : SetAttr)
  | Rsetattr
  | Txattrwalk (fid newfid : Nat) (name : Bytes)
  | Rxattrwalk (size : Nat)
  | Txattrcreate (fid : Nat) (name : Bytes) (attr_size flags : Nat)
  | Rxattrcreate
  | Treaddir (fid offset count : Nat)
  | Rreaddir (data : List DirEntry)
  | Tfsync (fid : Nat)
  | Rfsync
  | Tlock (fid : Nat) (flock : Flock)
  | Rlock (status : Nat)
  | Tgetlock (fid : Nat) (flock : Getlock)
  | Rgetlock (flock : Getlock)
  | Tlink (dfid fid : Nat) (name : Bytes)
  | Rlink
  | Tmkdir (dfid : Nat) (name : Bytes) (mode gid : Nat)
  | Rmkdir (qid : Qid)
  | Trenameat (olddirfid : Nat) (oldname : Bytes) (newdirfid : Nat) (newname : Bytes)
  | Rrenameat
  | Tunlinkat (dirfd : Nat) (name : Bytes) (flags : Nat)
  | Runlinkat
  | Tauth (afid : Nat) (uname aname : Bytes) (n_uname : Nat)
  | Rauth (aqid : Qid)
  | Tattach (fid afid : Nat) (uname aname : Bytes) (n_uname : Nat)
  | Rattach (qid : Qid)
  | Tversion (msize : Nat) (version : Bytes)
  | Rversion (msize : Nat) (version : Bytes)
  | Tflush (oldtag : Nat)
  | Rflush
  | Twalk (fid newfid : Nat) (wnames : List Bytes)
  | Rwalk (wqids : List Qid)
  | Tread (fid offset count : Nat)
  | Rread (data : Bytes)
  | Twrite (fid offset : Nat) (data : Bytes)
  | Rwrite (count : Nat)
  | Tclunk (fid : Nat)
  | Rclunk
  | Tremove (fid : Nat)
  | Rremove
  deriving Repr

/-- The message type matching a body variant (the redundant `typ` field a
well-formed `Msg` must carry). -/
def Fcall.typeOf : Fcall → MsgType
  | .Rlerror _ => .Rlerror
  | .Tstatfs _ => .Tstatfs
  | .Rstatfs _ => .Rstatfs
  | .Tlopen _ _ => .Tlopen
  | .Rlopen _ _ => .Rlopen
  | .Tlcreate _ _ _ _ _ => .Tlcreate
  | .Rlcreate _ _ => .Rlcreate
  | .Tsymlink _ _ _ _ => .Tsymlink
  | .Rsymlink _ => .Rsymlink
  | .Tmknod _ _ _ _ _ _ => .Tmknod
  | .Rmknod _ => .Rmknod
  | .Trename _ _ _ => .Trename
  | .Rrename => .Rrename
  | .Treadlink _ => .Treadlink
  | .Rreadlink _ => .Rreadlink
  | .Tgetattr _ _ => .Tgetattr
  | .Rgetattr _ _ _ => .Rgetattr
  | .Tsetattr _ _ _ => .Tsetattr
  | .Rsetattr => .Rsetattr
  | .Txattrwalk _ _ _ => .Txattrwalk
  | .Rxattrwalk _ => .Rxattrwalk
  | .Txattrcreate _ _ _ _ => .Txattrcreate
  | .Rxattrcreate => .Rxattrcreate
  | .Treaddir _ _ _ => .Treaddir
  | .Rreaddir _ => .Rreaddir
  | .Tfsync _ => .Tfsync
  | .Rfsync => .Rfsync
  | .Tlock _ _ => .Tlock
  | .Rlock _ => .Rlock
  | .Tgetlock _ _ => .Tgetlock
  | .Rgetlock _ => .Rgetlock
  | .Tlink _ _ _ => .Tlink
  | .Rlink => .Rlink
  | .Tmkdir _ _ _ _ => .Tmkdir
  | .Rmkdir _ => .Rmkdir
  | .Trenameat _ _ _ _ => .Trenameat
  | .Rrenameat => .Rrenameat
  | .Tunlinkat _ _ _ => .Tunlinkat
  | .Runlinkat => .Runlinkat
  | .Tauth _ _ _ _ => .Tauth
  | .Rauth _ => .Rauth
  | .Tattach _ _ _ _ _ => .Tattach
  | .Rattach _ => .Rattach
  | .Tversion _ _ => .Tversion
  | .Rversion _ _ => .Rversion
  | .Tflush _ => .Tflush
  | .Rflush => .Rflush
  | .Twalk _ _ _ => .Twalk
  | .Rwalk _ => .Rwalk
  | .Tread _ _ _ => .Tread
  | .Rread _ => .Rread
  | .Twrite _ _ _ => .Twrite
  | .Rwrite _ => .Rwrite
  | .Tclunk _ => .Tclunk
  | .Rclunk => .Rclunk
  | .Tremove _ => .Tremove
  | .Rremove => .Rremove

/-- Message envelope (`Msg` in `fcall.rs`): `typ: MsgType`, `tag: u16`,
`body: Fcall`. -/
structure Msg where
  typ : MsgType
  tag : Nat
  body : Fcall
  deriving Repr

/-! ## Encoding (`impl Encodable` in `src/serialize.rs`) -/

/-- `impl Encodable for String`: 2-byte little-endian length prefix
(`self.len() as u16`, i.e. truncated modulo 2^16) followed by all the
string's bytes. Total; never fails, even above 65535 bytes. -/
def encString (s : Bytes) : Bytes := toLE 2 s.length ++ s

/-- `impl Encodable for Data`: 4-byte length (`size as u32`) then the raw
bytes. -/
def encData (d : Bytes) : Bytes := toLE 4 d.length ++ d

/-- `impl Encodable for Qid`: typ(1) · version(4) · path(8). -/
def encQid (q : Qid) : Bytes := toLE 1 q.typ ++ toLE 4 q.version ++ toLE 8 q.path

/-- `impl Encodable for Time`: sec(8) · nsec(8). -/
def encTime (t : Time) : Bytes := toLE 8 t.sec ++ toLE 8 t.nsec

/-- `impl Encodable for Stat`. -/
def encStat (s : Stat) : Bytes :=
  toLE 4 s.mode ++ toLE 4 s.uid ++ toLE 4 s.gid ++ toLE 8 s.nlink ++ toLE 8 s.rdev ++
  toLE 8 s.size ++ toLE 8 s.blksize ++ toLE 8 s.blocks ++
  encTime s.atime ++ encTime s.mtime ++ encTime s.ctime

/-- `impl Encodable for SetAttr`. -/
def encSetAttr (s : SetAttr) : Bytes :=
  toLE 4 s.mode ++ toLE 4 s.uid ++ toLE 4 s.gid ++ toLE 8 s.size ++
  encTime s.atime ++ encTime s.mtime

/-- `impl Encodable for Statfs`. -/
def encStatfs (s : Statfs) : Bytes :=
  toLE 4 s.typ ++ toLE 4 s.bsize ++ toLE 8 s.blocks ++ toLE 8 s.bfree ++
  toLE 8 s.bavail ++ toLE 8 s.files ++ toLE 8 s.ffree ++ toLE 8 s.fsid ++
  toLE 4 s.namelen

/-- `impl Encodable for DirEntry`: qid · offset(8) · typ(1) · name. -/
def encDirEntry (e : DirEntry) : Bytes :=
  encQid e.qid ++ toLE 8 e.offset ++ toLE 1 e.typ ++ encString e.name

/-- `impl Encodable for DirEntryData`: 4-byte entry count
(`DirEntryData::size`, the entry count as `u32`; modelled from the spec:
the readdir block prefix is a "4-byte count (number of entries)") followed
by the encoded entries. -/
def encDirEntryData (es : List DirEntry) : Bytes :=
  toLE 4 es.length ++ (es.map encDirEntry).flatten

/-- `impl Encodable for Flock`: typ(1) · flags(4) · start(8) · length(8)
· proc_id(4) · client_id. -/
def encFlock (f : Flock) : Bytes :=
  toLE 1 f.typ ++ toLE 4 f.flags ++ toLE 8 f.start ++ toLE 8 f.length ++
  toLE 4 f.proc_id ++ encString f.client_id

/-- `impl Encodable for Getlock`: typ(1) · start(8) · length(8) ·
proc_id(4) · client_id. -/
def encGetlock (g : Getlock) : Bytes :=
  toLE 1 g.typ ++ toLE 8 g.start ++ toLE 8 g.length ++ toLE 4 g.proc_id ++
  encString g.client_id

/-- `impl<T> Encodable for Vec<T>`: 2-byte count (`self.len() as u16`)
followed by the encoded elements. -/
def encVec (enc : α → Bytes) (v : List α) : Bytes :=
  toLE 2 v.length ++ (v.map enc).flatten

/-- The body part of `Msg::encode` (the bytes appended after the type
byte and tag for each `Fcall` variant, in source order). The reserved
trailer of `Rgetattr` is four zero `u64` fields. -/
def encBody : Fcall → Bytes
  | .Rlerror ecode => toLE 4 ecode
  | .Tstatfs fid => toLE 4 fid
  | .Rstatfs statfs => encStatfs statfs
  | .Tlopen fid flags => toLE 4 fid ++ toLE 4 flags
  | .Rlopen qid iounit => encQid qid ++ toLE 4 iounit
  | .Tlcreate fid name flags mode gid =>
      toLE 4 fid ++ encString name ++ toLE 4 flags ++ toLE 4 mode ++ toLE 4 gid
  | .Rlcreate qid iounit => encQid qid ++ toLE 4 iounit
  | .Tsymlink fid name symtgt gid =>
      toLE 4 fid ++ encString name ++ encString symtgt ++ toLE 4 gid
  | .Rsymlink qid => encQid qid
  | .Tmknod dfid name mode major minor gid =>
      toLE 4 dfid ++ encString name ++ toLE 4 mode ++ toLE 4 major ++
      toLE 4 minor ++ toLE 4 gid
  | .Rmknod qid => encQid qid
  | .Trename fid dfid name => toLE 4 fid ++ toLE 4 dfid ++ encString name
  | .Rrename => []
  | .Treadlink fid => toLE 4 fid
  | .Rreadlink target => encString target
  | .Tgetattr fid req_mask => toLE 4 fid ++ toLE 8 req_mask
  | .Rgetattr valid qid stat =>
      toLE 8 valid ++ encQid qid ++ encStat stat ++
      toLE 8 0 ++ toLE 8 0 ++ toLE 8 0 ++ toLE 8 0
  | .Tsetattr fid valid stat => toLE 4 fid ++ toLE 4 valid ++ encSetAttr stat
  | .Rsetattr => []
  | .Txattrwalk fid newfid name => toLE 4 fid ++ toLE 4 newfid ++ encString name
  | .Rxattrwalk size => toLE 8 size
  | .Txattrcreate fid name attr_size flags =>
      toLE 4 fid ++ encString name ++ toLE 8 attr_size ++ toLE 4 flags
  | .Rxattrcreate => []
  | .Treaddir fid offset count => toLE 4 fid ++ toLE 8 offset ++ toLE 4 count
  | .Rreaddir data => encDirEntryData data
  | .Tfsync fid => toLE 4 fid
  | .Rfsync => []
  | .Tlock fid flock => toLE 4 fid ++ encFlock flock
  | .Rlock status => toLE 1 status
  | .Tgetlock fid flock => toLE 4 fid ++ encGetlock flock
  | .Rgetlock flock => encGetlock flock
  | .Tlink dfid fid name => toLE 4 dfid ++ toLE 4 fid ++ encString name
  | .Rlink => []
  | .Tmkdir dfid name mode gid =>
      toLE 4 dfid ++ encString name ++ toLE 4 mode ++ toLE 4 gid
  | .Rmkdir qid => encQid qid
  | .Trenameat olddirfid oldname newdirfid newname =>
      toLE 4 olddirfid ++ encString oldname ++ toLE 4 newdirfid ++ encString newname
  | .Rrenameat => []
  | .Tunlinkat dirfd name flags => toLE 4 dirfd ++ encString name ++ toLE 4 flags
  | .Runlinkat => []
  | .Tauth afid uname aname n_uname =>
      toLE 4 afid ++ encString uname ++ encString aname ++ toLE 4 n_uname
  | .Rauth aqid => encQid aqid
  | .Tattach fid afid uname aname n_uname =>
      toLE 4 fid ++ toLE 4 afid ++ encString uname ++ encString aname ++ toLE 4 n_uname
  | .Rattach qid => encQid qid
  | .Tversion msize version => toLE 4 msize ++ encString version
  | .Rversion msize version => toLE 4 msize ++ encString version
  | .Tflush oldtag => toLE 2 oldtag
  | .Rflush => []
  | .Twalk fid newfid wnames => toLE 4 fid ++ toLE 4 newfid ++ encVec encString wnames
  | .Rwalk wqids => encVec encQid wqids
  | .Tread fid offset count => toLE 4 fid ++ toLE 8 offset ++ toLE 4 count
  | .Rread data => encData data
  | .Twrite fid offset data => toLE 4 fid ++ toLE 8 offset ++ encData data
  | .Rwrite count => toLE 4 count
  | .Tclunk fid => toLE 4 fid
  | .Rclunk => []
  | .Tremove fid => toLE 4 fid
  | .Rremove => []

/-- The buffer `Msg::encode` builds before prepending the size: type byte,
2-byte tag, body. -/
def Msg.encodeInner (m : Msg) : Bytes :=
  toLE 1 m.typ.toU8 ++ toLE 2 m.tag ++ encBody m.body

/-- The `usize` value `Msg::encode` returns: `size_of::<u32>() +
raw_buf.len()`, the untruncated total byte count. -/
def Msg.encodeRet (m : Msg) : Nat := 4 + m.encodeInner.length

/-- `Msg::encode`: the bytes written to the stream — the 4-byte
little-endian size (`size as u32`) followed by the inner buffer. -/
def Msg.encode (m : Msg) : Bytes := toLE 4 m.encodeRet ++ m.encodeInner

/-! ## Decoding (`impl Decodable` and `Msg::decode` in `src/serialize.rs`) -/

/-- Decoder-side failures: `byteorder::Error::UnexpectedEOF`, or the
`Io(Other, msg)` errors the decoder manufactures. -/
inductive DecodeError where
  | unexpectedEOF
  | ioOther (msg : String)
  deriving Repr, DecidableEq

/-- A decoder consumes a byte stream and yields a value plus the
remaining stream. -/
abbrev DecM (α : Type) := Bytes → Except DecodeError (α × Bytes)

/-- `read_exact` / `read_full`: read exactly `n` bytes, failing with
`UnexpectedEOF` when the stream ends first. -/
def readExact (n : Nat) : DecM Bytes := fun s =>
  if n ≤ s.length then .ok (s.take n, s.drop n) else .error .unexpectedEOF

/-- Sequencing of decoders. -/
def dbind (p : DecM α) (k : α → DecM β) : DecM β := fun s =>
  match p s with
  | .error e => .error e
  | .ok (a, s') => k a s'

/-- A decoder returning a fixed value. -/
def dpure (a : α) : DecM α := fun s => .ok (a, s)

/-- `read_u8`. -/
def decU8 : DecM Nat := fun s =>
  match s with
  | [] => .error .unexpectedEOF
  | b :: r => .ok (b, r)

/-- `read_u16::<LittleEndian>`. -/
def decU16 : DecM Nat := dbind (readExact 2) (fun bs => dpure (fromLE bs))

/-- `read_u32::<LittleEndian>`. -/
def decU32 : DecM Nat := dbind (readExact 4) (fun bs => dpure (fromLE bs))

/-- `read_u64::<LittleEndian>`. -/
def decU64 : DecM Nat := dbind (readExact 8) (fun bs => dpure (fromLE bs))

/-- `impl Decodable for String`: 2-byte length, that many bytes, then the
`String::from_utf8` validity check. -/
def decString : DecM Bytes :=
  dbind decU16 fun len =>
  dbind (readExact len) fun buf =>
  fun s => if isValidUtf8 buf then .ok (buf, s)
           else .error (.ioOther "Invalid UTF-8 sequence")

/-- `impl Decodable for Data`: 4-byte length then that many raw bytes. -/
def decData : DecM Bytes :=
  dbind decU32 fun len => readExact len

/-- `decode_trunc!(QidType, ...)`: `from_bits_truncate` keeps the defined
bits. Modelled from the spec: `QidType` covers the bits {DIR=0x80,
APPEND=0x40, EXCL=0x20, MOUNT=0x10, AUTH=0x08, TMP=0x04, SYMLINK=0x02,
LINK=0x01, FILE=0}, so the mask is 0xFF and truncation is `% 256`. -/
def qidTypeTrunc (n : Nat) : Nat := n % 256

/-- `GetattrMask::from_bits_truncate`: the defined bits are
`getattr::ALL = 0x3fff` (from `fcall.rs`), so truncation is `% 2^14`. -/
def getattrMaskTrunc (n : Nat) : Nat := n % 16384

/-- `SetattrMask::from_bits_truncate`: defined bits 0x1ff (`fcall.rs`
`setattr` constants), truncation `% 2^9`. -/
def setattrMaskTrunc (n : Nat) : Nat := n % 512

/-- `LockType::from_bits_truncate`: defined bits {0,1,2} (`fcall.rs`
`ltype`), mask 3, truncation `% 4`. -/
def lockTypeTrunc (n : Nat) : Nat := n % 4

/-- `LockFlag::from_bits_truncate`: defined bits {1,2} (`fcall.rs`
`lflag`), mask 3, truncation `% 4`. -/
def lockFlagTrunc (n : Nat) : Nat := n % 4

/-- `LockStatus::from_bits_truncate`: defined bits {0,1,2,3} (`fcall.rs`
`lstatus`), mask 3, truncation `% 4`. -/
def lockStatusTrunc (n : Nat) : Nat := n % 4

/-- `impl Decodable for Qid`. -/
def decQid : DecM Qid :=
  dbind decU8 fun t =>
  dbind decU32 fun v =>
  dbind decU64 fun p =>
  dpure ⟨qidTypeTrunc t, v, p⟩

/-- `impl Decodable for Time`. -/
def decTime : DecM Time :=
  dbind decU64 fun sec =>
  dbind decU64 fun nsec =>
  dpure ⟨sec, nsec⟩

/-- `impl Decodable for Stat`. -/
def decStat : DecM Stat :=
  dbind decU32 fun mode =>
  dbind decU32 fun uid =>
  dbind decU32 fun gid =>
  dbind decU64 fun nlink =>
  dbind decU64 fun rdev =>
  dbind decU64 fun size =>
  dbind decU64 fun blksize =>
  dbind decU64 fun blocks =>
  dbind decTime fun atime =>
  dbind decTime fun mtime =>
  dbind decTime fun ctime =>
  dpure ⟨mode, uid, gid, nlink, rdev, size, blksize, blocks, atime, mtime, ctime⟩

/-- `impl Decodable for SetAttr`. -/
def decSetAttr : DecM SetAttr :=
  dbind decU32 fun mode =>
  dbind decU32 fun uid =>
  dbind decU32 fun gid =>
  dbind decU64 fun size =>
  dbind decTime fun atime =>
  dbind decTime fun mtime =>
  dpure ⟨mode, uid, gid, size, atime, mtime⟩

/-- `impl Decodable for Statfs`. -/
def decStatfs : DecM Statfs :=
  dbind decU32 fun typ =>
  dbind decU32 fun bsize =>
  dbind decU64 fun blocks =>
  dbind decU64 fun bfree =>
  dbind decU64 fun bavail =>
  dbind decU64 fun files =>
  dbind decU64 fun ffree =>
  dbind decU64 fun fsid =>
  dbind decU32 fun namelen =>
  dpure ⟨typ, bsize, blocks, bfree, bavail, files, ffree, fsid, namelen⟩

/-- `impl Decodable for DirEntry`. -/
def decDirEntry : DecM DirEntry :=
  dbind decQid fun qid =>
  dbind decU64 fun offset =>
  dbind decU8 fun typ =>
  dbind decString fun name =>
  dpure ⟨qid, offset, typ, name⟩

/-- Decode `n` consecutive elements (the `for _ in 0..count` loops of the
vector decoders). -/
def decCount (d : DecM α) : Nat → DecM (List α)
  | 0 => dpure []
  | n + 1 =>
      dbind d fun x =>
      dbind (decCount d n) fun xs =>
      dpure (x :: xs)

/-- `impl Decodable for DirEntryData`: 4-byte entry count then that many
entries. -/
def decDirEntryData : DecM (List DirEntry) :=
  dbind decU32 fun count => decCount decDirEntry count

/-- `impl Decodable for Flock`. -/
def decFlock : DecM Flock :=
  dbind decU8 fun typ =>
  dbind decU32 fun flags =>
  dbind decU64 fun start =>
  dbind decU64 fun length =>
  dbind decU32 fun proc_id =>
  dbind decString fun client_id =>
  dpure ⟨lockTypeTrunc typ, lockFlagTrunc flags, start, length, proc_id, client_id⟩

/-- `impl Decodable for Getlock`. -/
def decGetlock : DecM Getlock :=
  dbind decU8 fun typ =>
  dbind decU64 fun start =>
  dbind decU64 fun length =>
  dbind decU32 fun proc_id =>
  dbind decString fun client_id =>
  dpure ⟨lockTypeTrunc typ, start, length, proc_id, client_id⟩

/-- `impl<T> Decodable for Vec<T>`: 2-byte count then that many
elements. -/
def decVec (d : DecM α) : DecM (List α) :=
  dbind decU16 fun len => decCount d len

/-- The per-type body parser of `Msg::decode` (the fields read for each
message type, in source order). `Tlerror` is rejected by `Msg::decode`
before this is consulted. -/
def decBody : MsgType → DecM Fcall
  | .Tlerror => fun _ => .error (.ioOther "Invalid message type")
  | .Rlerror => dbind decU32 fun ecode => dpure (.Rlerror ecode)
  | .Tstatfs => dbind decU32 fun fid => dpure (.Tstatfs fid)
  | .Rstatfs => dbind decStatfs fun statfs => dpure (.Rstatfs statfs)
  | .Tlopen =>
      dbind decU32 fun fid => dbind decU32 fun flags => dpure (.Tlopen fid flags)
  | .Rlopen =>
      dbind decQid fun qid => dbind decU32 fun iounit => dpure (.Rlopen qid iounit)
  | .Tlcreate =>
      dbind decU32 fun fid => dbind decString fun name => dbind decU32 fun flags =>
      dbind decU32 fun mode => dbind decU32 fun gid =>
      dpure (.Tlcreate fid name flags mode gid)
  | .Rlcreate =>
      dbind decQid fun qid => dbind decU32 fun iounit => dpure (.Rlcreate qid iounit)
  | .Tsymlink =>
      dbind decU32 fun fid => dbind decString fun name =>
      dbind decString fun symtgt => dbind decU32 fun gid =>
      dpure (.Tsymlink fid name symtgt gid)
  | .Rsymlink => dbind decQid fun qid => dpure (.Rsymlink qid)
  | .Tmknod =>
      dbind decU32 fun dfid => dbind decString fun name => dbind decU32 fun mode =>
      dbind decU32 fun major => dbind decU32 fun minor => dbind decU32 fun gid =>
      dpure (.Tmknod dfid name mode major minor gid)
  | .Rmknod => dbind decQid fun qid => dpure (.Rmknod qid)
  | .Trename =>
      dbind decU32 fun fid => dbind decU32 fun dfid => dbind decString fun name =>
      dpure (.Trename fid dfid name)
  | .Rrename => dpure .Rrename
  | .Treadlink => dbind decU32 fun fid => dpure (.Treadlink fid)
  | .Rreadlink => dbind decString fun target => dpure (.Rreadlink target)
  | .Tgetattr =>
      dbind decU32 fun fid => dbind decU64 fun req_mask =>
      dpure (.Tgetattr fid (getattrMaskTrunc req_mask))
  | .Rgetattr =>
      dbind decU64 fun valid => dbind decQid fun qid => dbind decStat fun stat =>
      dbind decTime fun _btime => dbind decU64 fun _gen =>
      dbind decU64 fun _data_version =>
      dpure (.Rgetattr (getattrMaskTrunc valid) qid stat)
  | .Tsetattr =>
      dbind decU32 fun fid => dbind decU32 fun valid => dbind decSetAttr fun stat =>
      dpure (.Tsetattr fid (setattrMaskTrunc valid) stat)
  | .Rsetattr => dpure .Rsetattr
  | .Txattrwalk =>
      dbind decU32 fun fid => dbind decU32 fun newfid => dbind decString fun name =>
      dpure (.Txattrwalk fid newfid name)
  | .Rxattrwalk => dbind decU64 fun size => dpure (.Rxattrwalk size)
  | .Txattrcreate =>
      dbind decU32 fun fid => dbind decString fun name =>
      dbind decU64 fun attr_size => dbind decU32 fun flags =>
      dpure (.Txattrcreate fid name attr_size flags)
  | .Rxattrcreate => dpure .Rxattrcreate
  | .Treaddir =>
      dbind decU32 fun fid => dbind decU64 fun offset => dbind decU32 fun count =>
      dpure (.Treaddir fid offset count)
  | .Rreaddir => dbind decDirEntryData fun data => dpure (.Rreaddir data)
  | .Tfsync => dbind decU32 fun fid => dpure (.Tfsync fid)
  | .Rfsync => dpure .Rfsync
  | .Tlock =>
      dbind decU32 fun fid => dbind decFlock fun flock => dpure (.Tlock fid flock)
  | .Rlock => dbind decU8 fun status => dpure (.Rlock (lockStatusTrunc status))
  | .Tgetlock =>
      dbind decU32 fun fid => dbind decGetlock fun flock => dpure (.Tgetlock fid flock)
  | .Rgetlock => dbind decGetlock fun flock => dpure (.Rgetlock flock)
  | .Tlink =>
      dbind decU32 fun dfid => dbind decU32 fun fid => dbind decString fun name =>
      dpure (.Tlink dfid fid name)
  | .Rlink => dpure .Rlink
  | .Tmkdir =>
      dbind decU32 fun dfid => dbind decString fun name => dbind decU32 fun mode =>
      dbind decU32 fun gid => dpure (.Tmkdir dfid name mode gid)
  | .Rmkdir => dbind decQid fun qid => dpure (.Rmkdir qid)
  | .Trenameat =>
      dbind decU32 fun olddirfid => dbind decString fun oldname =>
      dbind decU32 fun newdirfid => dbind decString fun newname =>
      dpure (.Trenameat olddirfid oldname newdirfid newname)
  | .Rrenameat => dpure .Rrenameat
  | .Tunlinkat =>
      dbind decU32 fun dirfd => dbind decString fun name => dbind decU32 fun flags =>
      dpure (.Tunlinkat dirfd name flags)
  | .Runlinkat => dpure .Runlinkat
  | .Tauth =>
      dbind decU32 fun afid => dbind decString fun uname =>
      dbind decString fun aname => dbind decU32 fun n_uname =>
      dpure (.Tauth afid uname aname n_uname)
  | .Rauth => dbind decQid fun aqid => dpure (.Rauth aqid)
  | .Tattach =>
      dbind decU32 fun fid => dbind decU32 fun afid => dbind decString fun uname =>
      dbind decString fun aname => dbind decU32 fun n_uname =>
      dpure (.Tattach fid afid uname aname n_uname)
  | .Rattach => dbind decQid fun qid => dpure (.Rattach qid)
  | .Tversion =>
      dbind decU32 fun msize => dbind decString fun version =>
      dpure (.Tversion msize version)
  | .Rversion =>
      dbind decU32 fun msize => dbind decString fun version =>
      dpure (.Rversion msize version)
  | .Tflush => dbind decU16 fun oldtag => dpure (.Tflush oldtag)
  | .Rflush => dpure .Rflush
  | .Twalk =>
      dbind decU32 fun fid => dbind decU32 fun newfid =>
      dbind (decVec decString) fun wnames => dpure (.Twalk fid newfid wnames)
  | .Rwalk => dbind (decVec decQid) fun wqids => dpure (.Rwalk wqids)
  | .Tread =>
      dbind decU32 fun fid => dbind decU64 fun offset => dbind decU32 fun count =>
      dpure (.Tread fid offset count)
  | .Rread => dbind decData fun data => dpure (.Rread data)
  | .Twrite =>
      dbind decU32 fun fid => dbind decU64 fun offset => dbind decData fun data =>
      dpure (.Twrite fid offset data)
  | .Rwrite => dbind decU32 fun count => dpure (.Rwrite count)
  | .Tclunk => dbind decU32 fun fid => dpure (.Tclunk fid)
  | .Rclunk => dpure .Rclunk
  | .Tremove => dbind decU32 fun fid => dpure (.Tremove fid)
  | .Rremove => dpure .Rremove

/-- The cursor phase of `Msg::decode`: parse type byte, tag and body from
the in-memory frame buffer; any bytes left over in the buffer are
discarded, exactly as the source drops the rest of its `Cursor`. -/
def decMsgBuf (buf : Bytes) : Except DecodeError (MsgType × Nat × Fcall) :=
  match decU8 buf with
  | .error e => .error e
  | .ok (tbyte, buf) =>
    match decU16 buf with
    | .error e => .error e
    | .ok (tag, buf) =>
      match MsgType.fromU8 tbyte with
      | none => .error (.ioOther "Invalid message type")
      | some t =>
        if t = .Tlerror then .error (.ioOther "Invalid message type")
        else
          match decBody t buf with
          | .error e => .error e
          | .ok (body, _leftover) => .ok (t, tag, body)

/-- `Msg::decode`: read the 4-byte size, compute the body length with the
source's unguarded `u32` subtraction `size - 4` (wrapping modulo `2^32`,
as the release-mode Rust subtraction does), read exactly that many bytes,
and parse the frame from the resulting buffer. -/
def Msg.decode : DecM Msg :=
  dbind decU32 fun size =>
  dbind (readExact ((size + 2 ^ 32 - 4) % 2 ^ 32)) fun buf =>
  fun s =>
    match decMsgBuf buf with
    | .error e => .error e
    | .ok (t, tag, body) => .ok (⟨t, tag, body⟩, s)

/-! ## Well-formedness

`wfMsgClaimed` is exactly the spec claim's notion of a well-formed `Msg`:
the `typ` field agrees with the body variant, every string is valid UTF-8
of at most 65535 bytes, every bit-set field uses only defined bits — plus
the representability bounds every Rust value of the wire types satisfies
by construction (`u8`/`u16`/`u32`/`u64` ranges, strings are UTF-8).

`wfMsg` additionally bounds the variable-length collections by their
length-prefix width and the total encoded size by `2^32`. -/

/-- Fits in a `u8`. -/
def isU8 (n : Nat) : Bool := decide (n < 2 ^ 8)

/-- Fits in a `u16`. -/
def isU16 (n : Nat) : Bool := decide (n < 2 ^ 16)

/-- Fits in a `u32`. -/
def isU32 (n : Nat) : Bool := decide (n < 2 ^ 32)

/-- Fits in a `u64`. -/
def isU64 (n : Nat) : Bool := decide (n < 2 ^ 64)

/-- Well-formed protocol string: a Rust `String` (valid UTF-8 bytes) of
at most 65535 bytes. -/
def wfStr (s : Bytes) : Bool :=
  decide (s.length ≤ 65535) && s.all (fun b => isU8 b) && isValidUtf8 s

/-- Well-formed `Qid` (typ is a `u8` bit-set over the defined mask 0xFF). -/
def wfQid (q : Qid) : Bool := isU8 q.typ && isU32 q.version && isU64 q.path

/-- Well-formed `Time`. -/
def wfTime (t : Time) : Bool := isU64 t.sec && isU64 t.nsec

/-- Well-formed `Stat`. -/
def wfStat (s : Stat) : Bool :=
  isU32 s.mode && isU32 s.uid && isU32 s.gid && isU64 s.nlink && isU64 s.rdev &&
  isU64 s.size && isU64 s.blksize && isU64 s.blocks &&
  wfTime s.atime && wfTime s.mtime && wfTime s.ctime

/-- Well-formed `SetAttr`. -/
def wfSetAttr (s : SetAttr) : Bool :=
  isU32 s.mode && isU32 s.uid && isU32 s.gid && isU64 s.size &&
  wfTime s.atime && wfTime s.mtime

/-- Well-formed `Statfs`. -/
def wfStatfs (s : Statfs) : Bool :=
  isU32 s.typ && isU32 s.bsize && isU64 s.blocks && isU64 s.bfree &&
  isU64 s.bavail && isU64 s.files && isU64 s.ffree && isU64 s.fsid &&
  isU32 s.namelen

/-- Well-formed `DirEntry`. -/
def wfDirEntry (e : DirEntry) : Bool :=
  wfQid e.qid && isU64 e.offset && isU8 e.typ && wfStr e.name

/-- Well-formed `Flock` (typ within the LockType mask 3, flags within the
LockFlag mask 3). -/
def wfFlock (f : Flock) : Bool :=
  decide (f.typ < 4) && decide (f.flags < 4) && isU64 f.start &&
  isU64 f.length && isU32 f.proc_id && wfStr f.client_id

/-- Well-formed `Getlock` (typ within the LockType mask 3). -/
def wfGetlock (g : Getlock) : Bool :=
  decide (g.typ < 4) && isU64 g.start && isU64 g.length && isU32 g.proc_id &&
  wfStr g.client_id

/-- The claim's well-formedness of a message body: representable fields,
well-formed strings, bit-set fields within their defined masks. -/
def wfBodyClaimed : Fcall → Bool
  | .Rlerror e => isU32 e
  | .Tstatfs f => isU32 f
  | .Rstatfs s => wfStatfs s
  | .Tlopen f fl => isU32 f && isU32 fl
  | .Rlopen q io => wfQid q && isU32 io
  | .Tlcreate f n fl m g => isU32 f && wfStr n && isU32 fl && isU32 m && isU32 g
  | .Rlcreate q io => wfQid q && isU32 io
  | .Tsymlink f n s g => isU32 f && wfStr n && wfStr s && isU32 g
  | .Rsymlink q => wfQid q
  | .Tmknod d n m ma mi g =>
      isU32 d && wfStr n && isU32 m && isU32 ma && isU32 mi && isU32 g
  | .Rmknod q => wfQid q
  | .Trename f d n => isU32 f && isU32 d && wfStr n
  | .Rrename => true
  | .Treadlink f => isU32 f
  | .Rreadlink t => wfStr t
  | .Tgetattr f rm => isU32 f && decide (rm < 16384)
  | .Rgetattr v q s => decide (v < 16384) && wfQid q && wfStat s
  | .Tsetattr f v s => isU32 f && decide (v < 512) && wfSetAttr s
  | .Rsetattr => true
  | .Txattrwalk f nf n => isU32 f && isU32 nf && wfStr n
  | .Rxattrwalk s => isU64 s
  | .Txattrcreate f n a fl => isU32 f && wfStr n && isU64 a && isU32 fl
  | .Rxattrcreate => true
  | .Treaddir f o c => isU32 f && isU64 o && isU32 c
  | .Rreaddir data => data.all wfDirEntry
  | .Tfsync f => isU32 f
  | .Rfsync => true
  | .Tlock f fl => isU32 f && wfFlock fl
  | .Rlock st => decide (st < 4)
  | .Tgetlock f g => isU32 f && wfGetlock g
  | .Rgetlock g => wfGetlock g
  | .Tlink d f n => isU32 d && isU32 f && wfStr n
  | .Rlink => true
  | .Tmkdir d n m g => isU32 d && wfStr n && isU32 m && isU32 g
  | .Rmkdir q => wfQid q
  | .Trenameat od onm nd nnm => isU32 od && wfStr onm && isU32 nd && wfStr nnm
  | .Rrenameat => true
  | .Tunlinkat d n fl => isU32 d && wfStr n && isU32 fl
  | .Runlinkat => true
  | .Tauth a u an nu => isU32 a && wfStr u && wfStr an && isU32 nu
  | .Rauth q => wfQid q
  | .Tattach f a u an nu => isU32 f && isU32 a && wfStr u && wfStr an && isU32 nu
  | .Rattach q => wfQid q
  | .Tversion ms v => isU32 ms && wfStr v
  | .Rversion ms v => isU32 ms && wfStr v
  | .Tflush ot => isU16 ot
  | .Rflush => true
  | .Twalk f nf ws => isU32 f && isU32 nf && ws.all wfStr
  | .Rwalk qs => qs.all wfQid
  | .Tread f o c => isU32 f && isU64 o && isU32 c
  | .Rread d => d.all isU8
  | .Twrite f o d => isU32 f && isU64 o && d.all isU8
  | .Rwrite c => isU32 c
  | .Tclunk f => isU32 f
  | .Rclunk => true
  | .Tremove f => isU32 f
  | .Rremove => true

/-- Bounds on the variable-length collections that the claim's
well-formedness omits: each collection must fit its length prefix
(2 bytes for walk vectors, 4 bytes for data and readdir blocks). -/
def lenBounds : Fcall → Bool
  | .Rreaddir data => decide (data.length < 2 ^ 32)
  | .Twalk _ _ ws => decide (ws.length < 2 ^ 16)
  | .Rwalk qs => decide (qs.length < 2 ^ 16)
  | .Rread d => decide (d.length < 2 ^ 32)
  | .Twrite _ _ d => decide (d.length < 2 ^ 32)
  | _ => true

/-- The claim's well-formedness of a `Msg`. -/
def wfMsgClaimed (m : Msg) : Bool :=
  decide (m.typ = m.body.typeOf) && isU16 m.tag && wfBodyClaimed m.body

/-- Amended well-formedness: the claim's conditions plus the collection
bounds and a total encoded size below `2^32` (the width of the size
prefix). -/
def wfMsg (m : Msg) : Bool :=
  wfMsgClaimed m && lenBounds m.body && decide (m.encodeRet < 2 ^ 32)

/-! ## Errno layer (`src/error.rs`) -/

/-- Linux errno `EPERM`. -/
def EPERM : Nat := 1
/-- Linux errno `ENOENT`. -/
def ENOENT : Nat := 2
/-- Linux errno `EINTR`. -/
def EINTR : Nat := 4
/-- Linux errno `EIO`. -/
def EIO : Nat := 5
/-- Linux errno `EAGAIN`. -/
def EAGAIN : Nat := 11
/-- Linux errno `EINVAL`. -/
def EINVAL : Nat := 22
/-- Linux errno `EPIPE`. -/
def EPIPE : Nat := 32
/-- Linux errno `EPROTONOSUPPORT`. -/
def EPROTONOSUPPORT : Nat := 93
/-- Linux errno `EOPNOTSUPP`. -/
def EOPNOTSUPP : Nat := 95
/-- Linux errno `EADDRINUSE`. -/
def EADDRINUSE : Nat := 98
/-- Linux errno `EADDRNOTAVAIL`. -/
def EADDRNOTAVAIL : Nat := 99
/-- Linux errno `ECONNABORTED`. -/
def ECONNABORTED : Nat := 103
/-- Linux errno `ECONNRESET`. -/
def ECONNRESET : Nat := 104
/-- Linux errno `ENOTCONN`. -/
def ENOTCONN : Nat := 107
/-- Linux errno `ETIMEDOUT`. -/
def ETIMEDOUT : Nat := 110
/-- Linux errno `ECONNREFUSED`. -/
def ECONNREFUSED : Nat := 111
/-- Linux errno `EALREADY`. -/
def EALREADY : Nat := 114

/-- The `std::io::ErrorKind` values distinguished by
`errno_from_ioerror`; `Other` and `UnexpectedEof` stand for the
`Other | _` default arm. -/
inductive ErrorKind where
  | NotFound | PermissionDenied | ConnectionRefused | ConnectionReset
  | ConnectionAborted | NotConnected | AddrInUse | AddrNotAvailable
  | BrokenPipe | AlreadyExists | WouldBlock | InvalidInput | InvalidData
  | TimedOut | WriteZero | Interrupted | Other | UnexpectedEof
  deriving Repr, DecidableEq

/-- A host I/O error (`std::io::Error`): its kind, its message, and the
raw OS errno when one is attached (`raw_os_error()`). -/
structure IoError where
  kind : ErrorKind
  msg : String
  raw : Option Nat
  deriving Repr, DecidableEq

/-- Modelled from the spec: `nix::errno::from_i32` applied to a raw OS
errno — "if the underlying error carries a raw OS errno, that value is
used directly", so the raw value maps to itself. -/
def errnoFromRaw (n : Nat) : Nat := n

/-- `errno_from_ioerror` in `src/error.rs`: prefer the raw OS errno;
otherwise map the error kind, defaulting to `EIO`. -/
def errno_from_ioerror (e : IoError) : Nat :=
  match e.raw with
  | some n => errnoFromRaw n
  | none =>
    match e.kind with
    | .NotFound => ENOENT
    | .PermissionDenied => EPERM
    | .ConnectionRefused => ECONNREFUSED
    | .ConnectionReset => ECONNRESET
    | .ConnectionAborted => ECONNABORTED
    | .NotConnected => ENOTCONN
    | .AddrInUse => EADDRINUSE
    | .AddrNotAvailable => EADDRNOTAVAIL
    | .BrokenPipe => EPIPE
    | .AlreadyExists => EALREADY
    | .WouldBlock => EAGAIN
    | .InvalidInput => EINVAL
    | .InvalidData => EINVAL
    | .TimedOut => ETIMEDOUT
    | .WriteZero => EAGAIN
    | .Interrupted => EINTR
    | .Other => EIO
    | .UnexpectedEof => EIO

/-- The library error type (`error::Error`): an errno (`No`) or a host
I/O error (`Io`). -/
inductive Error where
  | No (errno : Nat)
  | Io (e : IoError)
  deriving Repr, DecidableEq

/-- `Error::errno`, the value used for `Rlerror`. -/
def Error.errno : Error → Nat
  | .No e => e
  | .Io e => errno_from_ioerror e

/-! ## Fid table and dispatcher (`src/srv.rs`)

Callbacks receive the `Fid` values by mutable reference and may change
only the public `aux` field (the raw `fid` field is private), so each
callback is modelled as returning its `Result<Fcall>` together with the
final `aux` value of every `Fid` argument. A callback also takes `&mut
self`, but a single dispatch calls the backend at most once, so for the
per-dispatch properties proved here the backend is a structure of pure
functions. -/

/-- `Fid<T>` in `srv.rs`: the raw client fid plus the backend's
per-fid state. -/
structure Fid (A : Type) where
  fid : Nat
  aux : Option A
  deriving Repr, DecidableEq

/-- The per-connection fid table (`HashMap<u32, Fid<Fs::Fid>>`), as a
map from raw fid to entry. -/
def FidTable (A : Type) := Nat → Option (Fid A)

/-- `HashMap::insert`. -/
def tableInsert (k : Nat) (v : Fid A) (t : FidTable A) : FidTable A :=
  fun x => if x = k then some v else t x

/-- `HashMap::remove` (dropping the returned entry). -/
def tableRemove (k : Nat) (t : FidTable A) : FidTable A :=
  fun x => if x = k then none else t x

/-- The empty fid table of a fresh connection. -/
def emptyTable : FidTable A := fun _ => none

/-- `Fcall::fids` (named `fid` in the `fcall.rs` revision in `src/`): the
raw fids of the existing entries a request references, in the order the
dispatcher takes them. -/
def Fcall.fids : Fcall → List Nat
  | .Tstatfs fid => [fid]
  | .Tlopen fid _ => [fid]
  | .Tlcreate fid _ _ _ _ => [fid]
  | .Tsymlink fid _ _ _ => [fid]
  | .Tmknod dfid _ _ _ _ _ => [dfid]
  | .Trename fid dfid _ => [fid, dfid]
  | .Treadlink fid => [fid]
  | .Tgetattr fid _ => [fid]
  | .Tsetattr fid _ _ => [fid]
  | .Txattrwalk fid _ _ => [fid]
  | .Txattrcreate fid _ _ _ => [fid]
  | .Treaddir fid _ _ => [fid]
  | .Tfsync fid => [fid]
  | .Tlock fid _ => [fid]
  | .Tgetlock fid _ => [fid]
  | .Tlink dfid fid _ => [dfid, fid]
  | .Tmkdir dfid _ _ _ => [dfid]
  | .Trenameat olddirfid _ newdirfid _ => [olddirfid, newdirfid]
  | .Tunlinkat dirfd _ _ => [dirfd]
  | .Twalk fid _ _ => [fid]
  | .Tread fid _ _ => [fid]
  | .Twrite fid _ _ => [fid]
  | .Tclunk fid => [fid]
  | .Tremove fid => [fid]
  | _ => []

/-- `Fcall::newfids` (named `newfid` in the `fcall.rs` revision in
`src/`): the raw fids for which the dispatcher constructs fresh entries. -/
def Fcall.newfids : Fcall → List Nat
  | .Txattrwalk _ newfid _ => [newfid]
  | .Tauth afid _ _ _ => [afid]
  | .Tattach fid _ _ _ _ => [fid]
  | .Twalk _ newfid _ => [newfid]
  | _ => []

/-- The fid-taking loop at the top of `dispatch_once`: remove the listed
fids one by one; on the first miss stop with an error (entries already
removed stay removed, as the source's early return leaves the mutated
`HashMap` behind). -/
def takeFids : List Nat → FidTable A → Except Unit (List (Fid A)) × FidTable A
  | [], t => (.ok [], t)
  | f :: rest, t =>
    match t f with
    | none => (.error (), t)
    | some fd =>
      match takeFids rest (tableRemove f t) with
      | (.ok fds, t') => (.ok (fd :: fds), t')
      | (.error e, t') => (.error e, t')

/-- The backend interface (`trait Filesystem` in `srv.rs`): one callback
per request kind. Each callback yields its `Result<Fcall>` and the final
`aux` of each `Fid` argument (in argument order); `rversion` and `rflush`
take no fid. -/
structure Filesystem (A : Type) where
  rstatfs : Fid A → Except Error Fcall × Option A
  rlopen : Fid A → Nat → Except Error Fcall × Option A
  rlcreate : Fid A → Bytes → Nat → Nat → Nat → Except Error Fcall × Option A
  rsymlink : Fid A → Bytes → Bytes → Nat → Except Error Fcall × Option A
  rmknod : Fid A → Bytes → Nat → Nat → Nat → Nat → Except Error Fcall × Option A
  rrename : Fid A → Fid A → Bytes → Except Error Fcall × Option A × Option A
  rreadlink : Fid A → Except Error Fcall × Option A
  rgetattr : Fid A → Nat → Except Error Fcall × Option A
  rsetattr : Fid A → Nat → SetAttr → Except Error Fcall × Option A
  rxattrwalk : Fid A → Fid A → Bytes → Except Error Fcall × Option A × Option A
  rxattrcreate : Fid A → Bytes → Nat → Nat → Except Error Fcall × Option A
  rreaddir : Fid A → Nat → Nat → Except Error Fcall × Option A
  rfsync : Fid A → Except Error Fcall × Option A
  rlock : Fid A → Flock → Except Error Fcall × Option A
  rgetlock : Fid A → Getlock → Except Error Fcall × Option A
  rlink : Fid A → Fid A → Bytes → Except Error Fcall × Option A × Option A
  rmkdir : Fid A → Bytes → Nat → Nat → Except Error Fcall × Option A
  rrenameat : Fid A → Bytes → Fid A → Bytes → Except Error Fcall × Option A × Option A
  runlinkat : Fid A → Bytes → Nat → Except Error Fcall × Option A
  rauth : Fid A → Bytes → Bytes → Nat → Except Error Fcall × Option A
  rattach : Fid A → Option (Fid A) → Bytes → Bytes → Nat → Except Error Fcall × Option A
  rflush : Option Fcall → Except Error Fcall
  rwalk : Fid A → Fid A → List Bytes → Except Error Fcall × Option A × Option A
  rread : Fid A → Nat → Nat → Except Error Fcall × Option A
  rwrite : Fid A → Nat → Bytes → Except Error Fcall × Option A
  rclunk : Fid A → Except Error Fcall × Option A
  rremove : Fid A → Except Error Fcall × Option A
  rversion : Nat → Bytes → Except Error Fcall

/-- The default `rversion` implementation in `trait Filesystem`: accept
exactly `"9P2000.L"`, echoing the client's msize and version; otherwise
`EPROTONOSUPPORT`. -/
def rversionDefault (ms : Nat) (ver : Bytes) : Except Error Fcall :=
  if ver = p92000L then .ok (.Rversion ms ver)
  else .error (.No EPROTONOSUPPORT)

/-- The trait's default implementations: every callback answers
`Err(Error::No(EOPNOTSUPP))` without touching its fid arguments, except
`rversion`. -/
def defaultFilesystem (A : Type) : Filesystem A where
  rstatfs := fun f => (.error (.No EOPNOTSUPP), f.aux)
  rlopen := fun f _ => (.error (.No EOPNOTSUPP), f.aux)
  rlcreate := fun f _ _ _ _ => (.error (.No EOPNOTSUPP), f.aux)
  rsymlink := fun f _ _ _ => (.error (.No EOPNOTSUPP), f.aux)
  rmknod := fun f _ _ _ _ _ => (.error (.No EOPNOTSUPP), f.aux)
  rrename := fun f d _ => (.error (.No EOPNOTSUPP), f.aux, d.aux)
  rreadlink := fun f => (.error (.No EOPNOTSUPP), f.aux)
  rgetattr := fun f _ => (.error (.No EOPNOTSUPP), f.aux)
  rsetattr := fun f _ _ => (.error (.No EOPNOTSUPP), f.aux)
  rxattrwalk := fun f n _ => (.error (.No EOPNOTSUPP), f.aux, n.aux)
  rxattrcreate := fun f _ _ _ => (.error (.No EOPNOTSUPP), f.aux)
  rreaddir := fun f _ _ => (.error (.No EOPNOTSUPP), f.aux)
  rfsync := fun f => (.error (.No EOPNOTSUPP), f.aux)
  rlock := fun f _ => (.error (.No EOPNOTSUPP), f.aux)
  rgetlock := fun f _ => (.error (.No EOPNOTSUPP), f.aux)
  rlink := fun f d _ => (.error (.No EOPNOTSUPP), f.aux, d.aux)
  rmkdir := fun f _ _ _ => (.error (.No EOPNOTSUPP), f.aux)
  rrenameat := fun f _ d _ => (.error (.No EOPNOTSUPP), f.aux, d.aux)
  runlinkat := fun f _ _ => (.error (.No EOPNOTSUPP), f.aux)
  rauth := fun f _ _ _ => (.error (.No EOPNOTSUPP), f.aux)
  rattach := fun f _ _ _ _ => (.error (.No EOPNOTSUPP), f.aux)
  rflush := fun _ => .error (.No EOPNOTSUPP)
  rwalk := fun f n _ => (.error (.No EOPNOTSUPP), f.aux, n.aux)
  rread := fun f _ _ => (.error (.No EOPNOTSUPP), f.aux)
  rwrite := fun f _ _ => (.error (.No EOPNOTSUPP), f.aux)
  rclunk := fun f => (.error (.No EOPNOTSUPP), f.aux)
  rremove := fun f => (.error (.No EOPNOTSUPP), f.aux)
  rversion := rversionDefault

/-- The tail of `dispatch_once`: convert an `Err` into `Rlerror` with the
error's errno, then reinsert the (possibly mutated) taken fids followed
by the new fids, and return the response with the request's tag. -/
def finishDispatch (tag : Nat) (tbl : FidTable A) (r : Except Error Fcall)
    (fids' newfids' : List (Fid A)) : Except Error (Fcall × Nat) × FidTable A :=
  let response := match r with
    | .ok fc => fc
    | .error e => Fcall.Rlerror e.errno
  let tbl := (fids' ++ newfids').foldl (fun t f => tableInsert f.fid f t) tbl
  (.ok (response, tag), tbl)

/-- Stand-in for the Rust index panic on branches where the taken-fid
vector is shorter than the arm expects; unreachable because the vector's
length always equals `msg.body.fids.length`. -/
def oobPanic (tbl : FidTable A) : Except Error (Fcall × Nat) × FidTable A :=
  (.error (.Io ⟨.Other, "index out of bounds", none⟩), tbl)

/-- `dispatch_once` in `srv.rs`: take the referenced fids (error on a
miss), build fresh entries for the new fids, invoke the matching backend
callback, turn an `Err` into `Rlerror`, and reinsert taken fids and new
fids — for `Tclunk` the taken fid is dropped when the callback succeeds.
Returns the `Result<(Fcall, u16)>` of the source together with the fid
table left behind. -/
def dispatchOnce (msg : Msg) (fs : Filesystem A) (fsfids : FidTable A) :
    Except Error (Fcall × Nat) × FidTable A :=
  match takeFids msg.body.fids fsfids with
  | (.error _, tbl) => (.error (.Io ⟨.NotFound, "No associated Fid", none⟩), tbl)
  | (.ok fids, tbl) =>
    let newfids : List (Fid A) := msg.body.newfids.map (fun f => ⟨f, none⟩)
    match msg.body with
    | .Tstatfs _ =>
      match fids with
      | [f0] =>
        let (r, a0) := fs.rstatfs f0
        finishDispatch msg.tag tbl r [{ f0 with aux := a0 }] newfids
      | _ => oobPanic tbl
    | .Tlopen _ flags =>
      match fids with
      | [f0] =>
        let (r, a0) := fs.rlopen f0 flags
        finishDispatch msg.tag tbl r [{ f0 with aux := a0 }] newfids
      | _ => oobPanic tbl
    | .Tlcreate _ name flags mode gid =>
      match fids with
      | [f0] =>
        let (r, a0) := fs.rlcreate f0 name flags mode gid
        finishDispatch msg.tag tbl r [{ f0 with aux := a0 }] newfids
      | _ => oobPanic tbl
    | .Tsymlink _ name symtgt gid =>
      match fids with
      | [f0] =>
        let (r, a0) := fs.rsymlink f0 name symtgt gid
        finishDispatch msg.tag tbl r [{ f0 with aux := a0 }] newfids
      | _ => oobPanic tbl
    | .Tmknod _ name mode major minor gid =>
      match fids with
      | [f0] =>
        let (r, a0) := fs.rmknod f0 name mode major minor gid
        finishDispatch msg.tag tbl r [{ f0 with aux := a0 }] newfids
      | _ => oobPanic tbl
    | .Trename _ _ name =>
      match fids with
      | [f0, f1] =>
        let (r, a0, a1) := fs.rrename f0 f1 name
        finishDispatch msg.tag tbl r
          [{ f0 with aux := a0 }, { f1 with aux := a1 }] newfids
      | _ => oobPanic tbl
    | .Treadlink _ =>
      match fids with
      | [f0] =>
        let (r, a0) := fs.rreadlink f0
        finishDispatch msg.tag tbl r [{ f0 with aux := a0 }] newfids
      | _ => oobPanic tbl
    | .Tgetattr _ req_mask =>
      match fids with
      | [f0] =>
        let (r, a0) := fs.rgetattr f0 req_mask
        finishDispatch msg.tag tbl r [{ f0 with aux := a0 }] newfids
      | _ => oobPanic tbl
    | .Tsetattr _ valid stat =>
      match fids with
      | [f0] =>
        let (r, a0) := fs.rsetattr f0 valid stat
        finishDispatch msg.tag tbl r [{ f0 with aux := a0 }] newfids
      | _ => oobPanic tbl
    | .Txattrwalk _ _ name =>
      match fids, newfids with
      | [f0], [n0] =>
        let (r, a0, a1) := fs.rxattrwalk f0 n0 name
        finishDispatch msg.tag tbl r [{ f0 with aux := a0 }] [{ n0 with aux := a1 }]
      | _, _ => oobPanic tbl
    | .Txattrcreate _ name attr_size flags =>
      match fids with
      | [f0] =>
        let (r, a0) := fs.rxattrcreate f0 name attr_size flags
        finishDispatch msg.tag tbl r [{ f0 with aux := a0 }] newfids
      | _ => oobPanic tbl
    | .Treaddir _ offset count =>
      match fids with
      | [f0] =>
        let (r, a0) := fs.rreaddir f0 offset count
        finishDispatch msg.tag tbl r [{ f0 with aux := a0 }] newfids
      | _ => oobPanic tbl
    | .Tfsync _ =>
      match fids with
      | [f0] =>
        let (r, a0) := fs.rfsync f0
        finishDispatch msg.tag tbl r [{ f0 with aux := a0 }] newfids
      | _ => oobPanic tbl
    | .Tlock _ flock =>
      match fids with
      | [f0] =>
        let (r, a0) := fs.rlock f0 flock
        finishDispatch msg.tag tbl r [{ f0 with aux := a0 }] newfids
      | _ => oobPanic tbl
    | .Tgetlock _ flock =>
      match fids with
      | [f0] =>
        let (r, a0) := fs.rgetlock f0 flock
        finishDispatch msg.tag tbl r [{ f0 with aux := a0 }] newfids
      | _ => oobPanic tbl
    | .Tlink _ _ name =>
      match fids with
      | [f0, f1] =>
        let (r, a0, a1) := fs.rlink f0 f1 name
        finishDispatch msg.tag tbl r
          [{ f0 with aux := a0 }, { f1 with aux := a1 }] newfids
      | _ => oobPanic tbl
    | .Tmkdir _ name mode gid =>
      match fids with
      | [f0] =>
        let (r, a0) := fs.rmkdir f0 name mode gid
        finishDispatch msg.tag tbl r [{ f0 with aux := a0 }] newfids
      | _ => oobPanic tbl
    | .Trenameat _ oldname _ newname =>
      match fids with
      | [f0, f1] =>
        let (r, a0, a1) := fs.rrenameat f0 oldname f1 newname
        finishDispatch msg.tag tbl r
          [{ f0 with aux := a0 }, { f1 with aux := a1 }] newfids
      | _ => oobPanic tbl
    | .Tunlinkat _ name flags =>
      match fids with
      | [f0] =>
        let (r, a0) := fs.runlinkat f0 name flags
        finishDispatch msg.tag tbl r [{ f0 with aux := a0 }] newfids
      | _ => oobPanic tbl
    | .Tauth _ uname aname n_uname =>
      match newfids with
      | [n0] =>
        let (r, a0) := fs.rauth n0 uname aname n_uname
        finishDispatch msg.tag tbl r fids [{ n0 with aux := a0 }]
      | _ => oobPanic tbl
    | .Tattach _ _ uname aname n_uname =>
      match newfids with
      | [n0] =>
        let (r, a0) := fs.rattach n0 none uname aname n_uname
        finishDispatch msg.tag tbl r fids [{ n0 with aux := a0 }]
      | _ => oobPanic tbl
    | .Tversion msize version =>
      finishDispatch msg.tag tbl (fs.rversion msize version) fids newfids
    | .Tflush _ =>
      finishDispatch msg.tag tbl (fs.rflush none) fids newfids
    | .Twalk _ _ wnames =>
      match fids, newfids with
      | [f0], [n0] =>
        let (r, a0, a1) := fs.rwalk f0 n0 wnames
        finishDispatch msg.tag tbl r [{ f0 with aux := a0 }] [{ n0 with aux := a1 }]
      | _, _ => oobPanic tbl
    | .Tread _ offset count =>
      match fids with
      | [f0] =>
        let (r, a0) := fs.rread f0 offset count
        finishDispatch msg.tag tbl r [{ f0 with aux := a0 }] newfids
      | _ => oobPanic tbl
    | .Twrite _ offset data =>
      match fids with
      | [f0] =>
        let (r, a0) := fs.rwrite f0 offset data
        finishDispatch msg.tag tbl r [{ f0 with aux := a0 }] newfids
      | _ => oobPanic tbl
    | .Tclunk _ =>
      match fids with
      | [f0] =>
        let (r, a0) := fs.rclunk f0
        match r with
        | .ok fc => finishDispatch msg.tag tbl (.ok fc) [] newfids
        | .error e => finishDispatch msg.tag tbl (.error e) [{ f0 with aux := a0 }] newfids
      | _ => oobPanic tbl
    | .Tremove _ =>
      match fids with
      | [f0] =>
        let (r, a0) := fs.rremove f0
        finishDispatch msg.tag tbl r [{ f0 with aux := a0 }] newfids
      | _ => oobPanic tbl
    | _ => (.error (.Io ⟨.Other, "Invalid 9P message received", none⟩), tbl)

/-- The pure skeleton of `ServerInstance::dispatch`: process incoming
messages in order, collecting the replies; the loop stops at the first
`Err` from `dispatch_once` (the connection ends). -/
def dispatchLoop (fs : Filesystem A) : FidTable A → List Msg → List (Fcall × Nat)
  | _, [] => []
  | tbl, m :: ms =>
    match dispatchOnce m fs tbl with
    | (.ok r, tbl') => r :: dispatchLoop fs tbl' ms
    | (.error _, _) => []

/-- A backend whose `rclunk` and `rremove` succeed (with `Rclunk` /
`Rremove` replies) and that otherwise keeps the trait defaults; used to
exercise the fid-destruction paths of the dispatcher. -/
def okClunkRemoveFs (A : Type) : Filesystem A :=
  { defaultFilesystem A with
    rclunk := fun f => (.ok .Rclunk, f.aux)
    rremove := fun f => (.ok .Rremove, f.aux) }

/-! ## Byte-level lemmas -/

theorem toLE_length (w n : Nat) : (toLE w n).length = w := by
  induction w generalizing n with
  | zero => rfl
  | succ w ih => simp [toLE, ih]

theorem fromLE_toLE (w n : Nat) : fromLE (toLE w n) = n % 2 ^ (8 * w) := by
  induction w generalizing n with
  | zero => simp [toLE, fromLE, Nat.mod_one]
  | succ w ih =>
    have h : (2 : Nat) ^ (8 * (w + 1)) = 256 * 2 ^ (8 * w) := by
      rw [Nat.mul_succ, pow_add]
      norm_num [Nat.mul_comm]
    rw [toLE, fromLE, ih, h, Nat.mod_mul]

theorem fromLE_toLE_of_lt {w n : Nat} (h : n < 2 ^ (8 * w)) :
    fromLE (toLE w n) = n := by
  rw [fromLE_toLE, Nat.mod_eq_of_lt h]

theorem readExact_append (n : Nat) (l r : Bytes) (h : l.length = n) :
    readExact n (l ++ r) = .ok (l, r) := by
  subst h
  simp only [readExact, List.length_append]
  rw [if_pos (by omega), List.take_left, List.drop_left]

theorem readExact_exact (n : Nat) (l : Bytes) (h : l.length = n) :
    readExact n l = .ok (l, []) := by
  have := readExact_append n l [] h
  simpa using this

theorem dbind_ok {p : DecM α} {k : α → DecM β} {s : Bytes} {a : α} {s' : Bytes}
    (h : p s = .ok (a, s')) : dbind p k s = k a s' := by
  simp [dbind, h]

theorem dpure_eval (a : α) (s : Bytes) : dpure a s = .ok (a, s) := rfl

/-! ## Primitive decoder round-trips -/

theorem decU8_enc {t : Nat} (h : t < 256) (r : Bytes) :
    decU8 (toLE 1 t ++ r) = .ok (t, r) := by
  simp [toLE, decU8, Nat.mod_eq_of_lt h]

theorem decU16_enc {n : Nat} (h : n < 2 ^ 16) (r : Bytes) :
    decU16 (toLE 2 n ++ r) = .ok (n, r) := by
  rw [decU16, dbind_ok (readExact_append 2 _ r (toLE_length 2 n))]
  rw [dpure_eval, fromLE_toLE_of_lt (by norm_num; omega)]

theorem decU32_enc {n : Nat} (h : n < 2 ^ 32) (r : Bytes) :
    decU32 (toLE 4 n ++ r) = .ok (n, r) := by
  rw [decU32, dbind_ok (readExact_append 4 _ r (toLE_length 4 n))]
  rw [dpure_eval, fromLE_toLE_of_lt (by norm_num; omega)]

theorem decU64_enc {n : Nat} (h : n < 2 ^ 64) (r : Bytes) :
    decU64 (toLE 8 n ++ r) = .ok (n, r) := by
  rw [decU64, dbind_ok (readExact_append 8 _ r (toLE_length 8 n))]
  rw [dpure_eval, fromLE_toLE_of_lt (by norm_num; omega)]

theorem dbind_decU8 {t : Nat} (h : t < 256) (k : Nat → DecM β) (r : Bytes) :
    dbind decU8 k (toLE 1 t ++ r) = k t r := dbind_ok (decU8_enc h r)

theorem dbind_decU16 {n : Nat} (h : n < 2 ^ 16) (k : Nat → DecM β) (r : Bytes) :
    dbind decU16 k (toLE 2 n ++ r) = k n r := dbind_ok (decU16_enc h r)

theorem dbind_decU32 {n : Nat} (h : n < 2 ^ 32) (k : Nat → DecM β) (r : Bytes) :
    dbind decU32 k (toLE 4 n ++ r) = k n r := dbind_ok (decU32_enc h r)

theorem dbind_decU64 {n : Nat} (h : n < 2 ^ 64) (k : Nat → DecM β) (r : Bytes) :
    dbind decU64 k (toLE 8 n ++ r) = k n r := dbind_ok (decU64_enc h r)

theorem wfStr_parts {s : Bytes} (h : wfStr s = true) :
    s.length ≤ 65535 ∧ isValidUtf8 s = true := by
  simp only [wfStr, Bool.and_eq_true, decide_eq_true_eq] at h
  exact ⟨h.1.1, h.2⟩

theorem decString_enc {s : Bytes} (h : wfStr s = true) (r : Bytes) :
    decString (encString s ++ r) = .ok (s, r) := by
  obtain ⟨hlen, hutf⟩ := wfStr_parts h
  rw [encString, List.append_assoc, decString,
    dbind_decU16 (by omega) _ (s ++ r),
    dbind_ok (readExact_append s.length s r rfl), hutf]
  rfl

theorem dbind_decString {s : Bytes} (h : wfStr s = true) (k : Bytes → DecM β)
    (r : Bytes) : dbind decString k (encString s ++ r) = k s r :=
  dbind_ok (decString_enc h r)

theorem decData_enc {d : Bytes} (h : d.length < 2 ^ 32) (r : Bytes) :
    decData (encData d ++ r) = .ok (d, r) := by
  rw [encData, List.append_assoc, decData, dbind_decU32 h _ (d ++ r)]
  exact readExact_append d.length d r rfl

theorem dbind_decData {d : Bytes} (h : d.length < 2 ^ 32) (k : Bytes → DecM β)
    (r : Bytes) : dbind decData k (encData d ++ r) = k d r :=
  dbind_ok (decData_enc h r)

/-! ## Composite decoder round-trips -/

theorem decQid_enc {q : Qid} (h : wfQid q = true) (r : Bytes) :
    decQid (encQid q ++ r) = .ok (q, r) := by
  simp only [wfQid, Bool.and_eq_true, isU8, isU32, isU64, decide_eq_true_eq] at h
  obtain ⟨⟨h1, h2⟩, h3⟩ := h
  simp only [encQid, List.append_assoc, decQid, dbind_decU8 h1, dbind_decU32 h2,
    dbind_decU64 h3, dpure_eval, qidTypeTrunc]
  rw [Nat.mod_eq_of_lt (show q.typ < 256 by omega)]

theorem dbind_decQid {q : Qid} (h : wfQid q = true) (k : Qid → DecM β) (r : Bytes) :
    dbind decQid k (encQid q ++ r) = k q r := dbind_ok (decQid_enc h r)

theorem decTime_enc {t : Time} (h : wfTime t = true) (r : Bytes) :
    decTime (encTime t ++ r) = .ok (t, r) := by
  simp only [wfTime, Bool.and_eq_true, isU64, decide_eq_true_eq] at h
  obtain ⟨h1, h2⟩ := h
  simp only [encTime, List.append_assoc, decTime, dbind_decU64 h1, dbind_decU64 h2,
    dpure_eval]

theorem dbind_decTime {t : Time} (h : wfTime t = true) (k : Time → DecM β)
    (r : Bytes) : dbind decTime k (encTime t ++ r) = k t r :=
  dbind_ok (decTime_enc h r)

theorem decTime_zeros (r : Bytes) :
    decTime (toLE 8 0 ++ (toLE 8 0 ++ r)) = .ok (⟨0, 0⟩, r) := by
  have h : wfTime ⟨0, 0⟩ = true := by decide
  have := decTime_enc h r
  simpa [encTime, List.append_assoc] using this

theorem dbind_decTime_zeros (k : Time → DecM β) (r : Bytes) :
    dbind decTime k (toLE 8 0 ++ (toLE 8 0 ++ r)) = k ⟨0, 0⟩ r :=
  dbind_ok (decTime_zeros r)

theorem decStat_enc {s : Stat} (h : wfStat s = true) (r : Bytes) :
    decStat (encStat s ++ r) = .ok (s, r) := by
  simp only [wfStat, Bool.and_eq_true, isU32, isU64, decide_eq_true_eq] at h
  obtain ⟨⟨⟨⟨⟨⟨⟨⟨⟨⟨h1, h2⟩, h3⟩, h4⟩, h5⟩, h6⟩, h7⟩, h8⟩, h9⟩, h10⟩, h11⟩ := h
  simp only [encStat, List.append_assoc, decStat, dbind_decU32 h1, dbind_decU32 h2,
    dbind_decU32 h3, dbind_decU64 h4, dbind_decU64 h5, dbind_decU64 h6,
    dbind_decU64 h7, dbind_decU64 h8, dbind_decTime h9, dbind_decTime h10,
    dbind_decTime h11, dpure_eval]

theorem dbind_decStat {s : Stat} (h : wfStat s = true) (k : Stat → DecM β)
    (r : Bytes) : dbind decStat k (encStat s ++ r) = k s r :=
  dbind_ok (decStat_enc h r)

theorem decSetAttr_enc {s : SetAttr} (h : wfSetAttr s = true) (r : Bytes) :
    decSetAttr (encSetAttr s ++ r) = .ok (s, r) := by
  simp only [wfSetAttr, Bool.and_eq_true, isU32, isU64, decide_eq_true_eq] at h
  obtain ⟨⟨⟨⟨⟨h1, h2⟩, h3⟩, h4⟩, h5⟩, h6⟩ := h
  simp only [encSetAttr, List.append_assoc, decSetAttr, dbind_decU32 h1,
    dbind_decU32 h2, dbind_decU32 h3, dbind_decU64 h4, dbind_decTime h5,
    dbind_decTime h6, dpure_eval]

theorem dbind_decSetAttr {s : SetAttr} (h : wfSetAttr s = true)
    (k : SetAttr → DecM β) (r : Bytes) :
    dbind decSetAttr k (encSetAttr s ++ r) = k s r :=
  dbind_ok (decSetAttr_enc h r)

theorem decStatfs_enc {s : Statfs} (h : wfStatfs s = true) (r : Bytes) :
    decStatfs (encStatfs s ++ r) = .ok (s, r) := by
  simp only [wfStatfs, Bool.and_eq_true, isU32, isU64, decide_eq_true_eq] at h
  obtain ⟨⟨⟨⟨⟨⟨⟨⟨h1, h2⟩, h3⟩, h4⟩, h5⟩, h6⟩, h7⟩, h8⟩, h9⟩ := h
  simp only [encStatfs, List.append_assoc, decStatfs, dbind_decU32 h1,
    dbind_decU32 h2, dbind_decU64 h3, dbind_decU64 h4, dbind_decU64 h5,
    dbind_decU64 h6, dbind_decU64 h7, dbind_decU64 h8, dbind_decU32 h9,
    dpure_eval]

theorem dbind_decStatfs {s : Statfs} (h : wfStatfs s = true)
    (k : Statfs → DecM β) (r : Bytes) :
    dbind decStatfs k (encStatfs s ++ r) = k s r :=
  dbind_ok (decStatfs_enc h r)

theorem decDirEntry_enc {e : DirEntry} (h : wfDirEntry e = true) (r : Bytes) :
    decDirEntry (encDirEntry e ++ r) = .ok (e, r) := by
  simp only [wfDirEntry, Bool.and_eq_true, isU8, isU64, decide_eq_true_eq] at h
  obtain ⟨⟨⟨h1, h2⟩, h3⟩, h4⟩ := h
  simp only [encDirEntry, List.append_assoc, decDirEntry, dbind_decQid h1,
    dbind_decU64 h2, dbind_decU8 h3, dbind_decString h4, dpure_eval]

theorem decFlock_enc {f : Flock} (h : wfFlock f = true) (r : Bytes) :
    decFlock (encFlock f ++ r) = .ok (f, r) := by
  simp only [wfFlock, Bool.and_eq_true, isU32, isU64, decide_eq_true_eq] at h
  obtain ⟨⟨⟨⟨⟨h1, h2⟩, h3⟩, h4⟩, h5⟩, h6⟩ := h
  have h1' : f.typ < 256 := by omega
  have h2' : f.flags < 2 ^ 32 := by omega
  simp only [encFlock, List.append_assoc, decFlock, dbind_decU8 h1',
    dbind_decU32 h2', dbind_decU64 h3, dbind_decU64 h4, dbind_decU32 h5,
    dbind_decString h6, dpure_eval, lockTypeTrunc, lockFlagTrunc]
  rw [Nat.mod_eq_of_lt (show f.typ < 4 by omega),
    Nat.mod_eq_of_lt (show f.flags < 4 by omega)]

theorem dbind_decFlock {f : Flock} (h : wfFlock f = true) (k : Flock → DecM β)
    (r : Bytes) : dbind decFlock k (encFlock f ++ r) = k f r :=
  dbind_ok (decFlock_enc h r)

theorem decGetlock_enc {g : Getlock} (h : wfGetlock g = true) (r : Bytes) :
    decGetlock (encGetlock g ++ r) = .ok (g, r) := by
  simp only [wfGetlock, Bool.and_eq_true, isU32, isU64, decide_eq_true_eq] at h
  obtain ⟨⟨⟨⟨h1, h2⟩, h3⟩, h4⟩, h5⟩ := h
  have h1' : g.typ < 256 := by omega
  simp only [encGetlock, List.append_assoc, decGetlock, dbind_decU8 h1',
    dbind_decU64 h2, dbind_decU64 h3, dbind_decU32 h4, dbind_decString h5,
    dpure_eval, lockTypeTrunc]
  rw [Nat.mod_eq_of_lt (show g.typ < 4 by omega)]

theorem dbind_decGetlock {g : Getlock} (h : wfGetlock g = true)
    (k : Getlock → DecM β) (r : Bytes) :
    dbind decGetlock k (encGetlock g ++ r) = k g r :=
  dbind_ok (decGetlock_enc h r)

theorem decCount_enc {d : DecM α} {enc : α → Bytes} :
    ∀ (v : List α), (∀ x ∈ v, ∀ r, d (enc x ++ r) = .ok (x, r)) →
    ∀ (r : Bytes), decCount d v.length ((v.map enc).flatten ++ r) = .ok (v, r)
  | [], _, r => by simp [decCount, dpure_eval]
  | x :: xs, hx, r => by
    simp only [List.length_cons, List.map_cons, List.flatten_cons,
      List.append_assoc, decCount]
    rw [dbind_ok (hx x (List.mem_cons_self x xs) _),
      dbind_ok (decCount_enc xs (fun y hy r' => hx y (List.mem_cons_of_mem x hy) r') r)]
    rfl

theorem decVec_enc {d : DecM α} {enc : α → Bytes} {v : List α}
    (hlen : v.length < 2 ^ 16)
    (hx : ∀ x ∈ v, ∀ r, d (enc x ++ r) = .ok (x, r)) (r : Bytes) :
    decVec d (encVec enc v ++ r) = .ok (v, r) := by
  simp only [encVec, List.append_assoc, decVec, dbind_decU16 hlen]
  exact decCount_enc v hx r

theorem dbind_decVecString {ws : List Bytes} (hlen : ws.length < 2 ^ 16)
    (hall : ws.all wfStr = true) (k : List Bytes → DecM β) (r : Bytes) :
    dbind (decVec decString) k (encVec encString ws ++ r) = k ws r := by
  refine dbind_ok (decVec_enc hlen (fun x hx r' => decString_enc ?_ r') r)
  exact List.all_eq_true.mp hall x hx

theorem dbind_decVecQid {qs : List Qid} (hlen : qs.length < 2 ^ 16)
    (hall : qs.all wfQid = true) (k : List Qid → DecM β) (r : Bytes) :
    dbind (decVec decQid) k (encVec encQid qs ++ r) = k qs r := by
  refine dbind_ok (decVec_enc hlen (fun x hx r' => decQid_enc ?_ r') r)
  exact List.all_eq_true.mp hall x hx

theorem decDirEntryData_enc {es : List DirEntry} (hlen : es.length < 2 ^ 32)
    (hall : es.all wfDirEntry = true) (r : Bytes) :
    decDirEntryData (encDirEntryData es ++ r) = .ok (es, r) := by
  simp only [encDirEntryData, List.append_assoc, decDirEntryData, dbind_decU32 hlen]
  exact decCount_enc es (fun x hx r' => decDirEntry_enc (List.all_eq_true.mp hall x hx) r') r

theorem dbind_decDirEntryData {es : List DirEntry} (hlen : es.length < 2 ^ 32)
    (hall : es.all wfDirEntry = true) (k : List DirEntry → DecM β) (r : Bytes) :
    dbind decDirEntryData k (encDirEntryData es ++ r) = k es r :=
  dbind_ok (decDirEntryData_enc hlen hall r)

/-- Per-variant round-trip of the body codec: parsing the encoded body of
a well-formed `Fcall` with the parser of its own message type returns the
body and leaves the rest untouched. -/
theorem decBody_enc (b : Fcall) (hwf : wfBodyClaimed b = true)
    (hlen : lenBounds b = true) (r : Bytes) :
    decBody b.typeOf (encBody b ++ r) = .ok (b, r) := by
  cases b with
  | Rlerror e =>
    simp only [wfBodyClaimed, isU32, decide_eq_true_eq] at hwf
    simp only [Fcall.typeOf, encBody, decBody, dbind_decU32 hwf, dpure_eval]
  | Tstatfs f =>
    simp only [wfBodyClaimed, isU32, decide_eq_true_eq] at hwf
    simp only [Fcall.typeOf, encBody, decBody, dbind_decU32 hwf, dpure_eval]
  | Rstatfs s =>
    simp only [wfBodyClaimed] at hwf
    simp only [Fcall.typeOf, encBody, decBody, dbind_decStatfs hwf, dpure_eval]
  | Tlopen f fl =>
    simp only [wfBodyClaimed, Bool.and_eq_true, isU32, decide_eq_true_eq] at hwf
    obtain ⟨h1, h2⟩ := hwf
    simp only [Fcall.typeOf, encBody, decBody, List.append_assoc,
      dbind_decU32 h1, dbind_decU32 h2, dpure_eval]
  | Rlopen q io =>
    simp only [wfBodyClaimed, Bool.and_eq_true, isU32, decide_eq_true_eq] at hwf
    obtain ⟨h1, h2⟩ := hwf
    simp only [Fcall.typeOf, encBody, decBody, List.append_assoc,
      dbind_decQid h1, dbind_decU32 h2, dpure_eval]
  | Tlcreate f n fl m g =>
    simp only [wfBodyClaimed, Bool.and_eq_true, isU32, decide_eq_true_eq] at hwf
    obtain ⟨⟨⟨⟨h1, h2⟩, h3⟩, h4⟩, h5⟩ := hwf
    simp only [Fcall.typeOf, encBody, decBody, List.append_assoc,
      dbind_decU32 h1, dbind_decString h2, dbind_decU32 h3, dbind_decU32 h4,
      dbind_decU32 h5, dpure_eval]
  | Rlcreate q io =>
    simp only [wfBodyClaimed, Bool.and_eq_true, isU32, decide_eq_true_eq] at hwf
    obtain ⟨h1, h2⟩ := hwf
    simp only [Fcall.typeOf, encBody, decBody, List.append_assoc,
      dbind_decQid h1, dbind_decU32 h2, dpure_eval]
  | Tsymlink f n s g =>
    simp only [wfBodyClaimed, Bool.and_eq_true, isU32, decide_eq_true_eq] at hwf
    obtain ⟨⟨⟨h1, h2⟩, h3⟩, h4⟩ := hwf
    simp only [Fcall.typeOf, encBody, decBody, List.append_assoc,
      dbind_decU32 h1, dbind_decString h2, dbind_decString h3, dbind_decU32 h4,
      dpure_eval]
  | Rsymlink q =>
    simp only [wfBodyClaimed] at hwf
    simp only [Fcall.typeOf, encBody, decBody, dbind_decQid hwf, dpure_eval]
  | Tmknod d n m ma mi g =>
    simp only [wfBodyClaimed, Bool.and_eq_true, isU32, decide_eq_true_eq] at hwf
    obtain ⟨⟨⟨⟨⟨h1, h2⟩, h3⟩, h4⟩, h5⟩, h6⟩ := hwf
    simp only [Fcall.typeOf, encBody, decBody, List.append_assoc,
      dbind_decU32 h1, dbind_decString h2, dbind_decU32 h3, dbind_decU32 h4,
      dbind_decU32 h5, dbind_decU32 h6, dpure_eval]
  | Rmknod q =>
    simp only [wfBodyClaimed] at hwf
    simp only [Fcall.typeOf, encBody, decBody, dbind_decQid hwf, dpure_eval]
  | Trename f d n =>
    simp only [wfBodyClaimed, Bool.and_eq_true, isU32, decide_eq_true_eq] at hwf
    obtain ⟨⟨h1, h2⟩, h3⟩ := hwf
    simp only [Fcall.typeOf, encBody, decBody, List.append_assoc,
      dbind_decU32 h1, dbind_decU32 h2, dbind_decString h3, dpure_eval]
  | Rrename =>
    simp only [Fcall.typeOf, encBody, decBody, List.nil_append, dpure_eval]
  | Treadlink f =>
    simp only [wfBodyClaimed, isU32, decide_eq_true_eq] at hwf
    simp only [Fcall.typeOf, encBody, decBody, dbind_decU32 hwf, dpure_eval]
  | Rreadlink t =>
    simp only [wfBodyClaimed] at hwf
    simp only [Fcall.typeOf, encBody, decBody, dbind_decString hwf, dpure_eval]
  | Tgetattr f rm =>
    simp only [wfBodyClaimed, Bool.and_eq_true, isU32, decide_eq_true_eq] at hwf
    obtain ⟨h1, h2⟩ := hwf
    have h2' : rm < 2 ^ 64 := by omega
    simp only [Fcall.typeOf, encBody, decBody, List.append_assoc,
      dbind_decU32 h1, dbind_decU64 h2', dpure_eval, getattrMaskTrunc]
    rw [Nat.mod_eq_of_lt h2]
  | Rgetattr v q s =>
    simp only [wfBodyClaimed, Bool.and_eq_true, decide_eq_true_eq] at hwf
    obtain ⟨⟨h1, h2⟩, h3⟩ := hwf
    have h1' : v < 2 ^ 64 := by omega
    have h0 : (0 : Nat) < 2 ^ 64 := by norm_num
    simp only [Fcall.typeOf, encBody, decBody, List.append_assoc,
      dbind_decU64 h1', dbind_decQid h2, dbind_decStat h3, dbind_decTime_zeros,
      dbind_decU64 h0, dpure_eval, getattrMaskTrunc]
    rw [Nat.mod_eq_of_lt h1]
  | Tsetattr f v s =>
    simp only [wfBodyClaimed, Bool.and_eq_true, isU32, decide_eq_true_eq] at hwf
    obtain ⟨⟨h1, h2⟩, h3⟩ := hwf
    have h2' : v < 2 ^ 32 := by omega
    simp only [Fcall.typeOf, encBody, decBody, List.append_assoc,
      dbind_decU32 h1, dbind_decU32 h2', dbind_decSetAttr h3, dpure_eval,
      setattrMaskTrunc]
    rw [Nat.mod_eq_of_lt h2]
  | Rsetattr =>
    simp only [Fcall.typeOf, encBody, decBody, List.nil_append, dpure_eval]
  | Txattrwalk f nf n =>
    simp only [wfBodyClaimed, Bool.and_eq_true, isU32, decide_eq_true_eq] at hwf
    obtain ⟨⟨h1, h2⟩, h3⟩ := hwf
    simp only [Fcall.typeOf, encBody, decBody, List.append_assoc,
      dbind_decU32 h1, dbind_decU32 h2, dbind_decString h3, dpure_eval]
  | Rxattrwalk s =>
    simp only [wfBodyClaimed, isU64, decide_eq_true_eq] at hwf
    simp only [Fcall.typeOf, encBody, decBody, dbind_decU64 hwf, dpure_eval]
  | Txattrcreate f n a fl =>
    simp only [wfBodyClaimed, Bool.and_eq_true, isU32, isU64, decide_eq_true_eq] at hwf
    obtain ⟨⟨⟨h1, h2⟩, h3⟩, h4⟩ := hwf
    simp only [Fcall.typeOf, encBody, decBody, List.append_assoc,
      dbind_decU32 h1, dbind_decString h2, dbind_decU64 h3, dbind_decU32 h4,
      dpure_eval]
  | Rxattrcreate =>
    simp only [Fcall.typeOf, encBody, decBody, List.nil_append, dpure_eval]
  | Treaddir f o c =>
    simp only [wfBodyClaimed, Bool.and_eq_true, isU32, isU64, decide_eq_true_eq] at hwf
    obtain ⟨⟨h1, h2⟩, h3⟩ := hwf
    simp only [Fcall.typeOf, encBody, decBody, List.append_assoc,
      dbind_decU32 h1, dbind_decU64 h2, dbind_decU32 h3, dpure_eval]
  | Rreaddir data =>
    simp only [wfBodyClaimed] at hwf
    simp only [lenBounds, decide_eq_true_eq] at hlen
    simp only [Fcall.typeOf, encBody, decBody,
      dbind_decDirEntryData hlen hwf, dpure_eval]
  | Tfsync f =>
    simp only [wfBodyClaimed, isU32, decide_eq_true_eq] at hwf
    simp only [Fcall.typeOf, encBody, decBody, dbind_decU32 hwf, dpure_eval]
  | Rfsync =>
    simp only [Fcall.typeOf, encBody, decBody, List.nil_append, dpure_eval]
  | Tlock f fl =>
    simp only [wfBodyClaimed, Bool.and_eq_true, isU32, decide_eq_true_eq] at hwf
    obtain ⟨h1, h2⟩ := hwf
    simp only [Fcall.typeOf, encBody, decBody, List.append_assoc,
      dbind_decU32 h1, dbind_decFlock h2, dpure_eval]
  | Rlock st =>
    simp only [wfBodyClaimed, decide_eq_true_eq] at hwf
    have h1' : st < 256 := by omega
    simp only [Fcall.typeOf, encBody, decBody, dbind_decU8 h1', dpure_eval,
      lockStatusTrunc]
    rw [Nat.mod_eq_of_lt hwf]
  | Tgetlock f g =>
    simp only [wfBodyClaimed, Bool.and_eq_true, isU32, decide_eq_true_eq] at hwf
    obtain ⟨h1, h2⟩ := hwf
    simp only [Fcall.typeOf, encBody, decBody, List.append_assoc,
      dbind_decU32 h1, dbind_decGetlock h2, dpure_eval]
  | Rgetlock g =>
    simp only [wfBodyClaimed] at hwf
    simp only [Fcall.typeOf, encBody, decBody, dbind_decGetlock hwf, dpure_eval]
  | Tlink d f n =>
    simp only [wfBodyClaimed, Bool.and_eq_true, isU32, decide_eq_true_eq] at hwf
    obtain ⟨⟨h1, h2⟩, h3⟩ := hwf
    simp only [Fcall.typeOf, encBody, decBody, List.append_assoc,
      dbind_decU32 h1, dbind_decU32 h2, dbind_decString h3, dpure_eval]
  | Rlink =>
    simp only [Fcall.typeOf, encBody, decBody, List.nil_append, dpure_eval]
  | Tmkdir d n m g =>
    simp only [wfBodyClaimed, Bool.and_eq_true, isU32, decide_eq_true_eq] at hwf
    obtain ⟨⟨⟨h1, h2⟩, h3⟩, h4⟩ := hwf
    simp only [Fcall.typeOf, encBody, decBody, List.append_assoc,
      dbind_decU32 h1, dbind_decString h2, dbind_decU32 h3, dbind_decU32 h4,
      dpure_eval]
  | Rmkdir q =>
    simp only [wfBodyClaimed] at hwf
    simp only [Fcall.typeOf, encBody, decBody, dbind_decQid hwf, dpure_eval]
  | Trenameat od onm nd nnm =>
    simp only [wfBodyClaimed, Bool.and_eq_true, isU32, decide_eq_true_eq] at hwf
    obtain ⟨⟨⟨h1, h2⟩, h3⟩, h4⟩ := hwf
    simp only [Fcall.typeOf, encBody, decBody, List.append_assoc,
      dbind_decU32 h1, dbind_decString h2, dbind_decU32 h3, dbind_decString h4,
      dpure_eval]
  | Rrenameat =>
    simp only [Fcall.typeOf, encBody, decBody, List.nil_append, dpure_eval]
  | Tunlinkat d n fl =>
    simp only [wfBodyClaimed, Bool.and_eq_true, isU32, decide_eq_true_eq] at hwf
    obtain ⟨⟨h1, h2⟩, h3⟩ := hwf
    simp only [Fcall.typeOf, encBody, decBody, List.append_assoc,
      dbind_decU32 h1, dbind_decString h2, dbind_decU32 h3, dpure_eval]
  | Runlinkat =>
    simp only [Fcall.typeOf, encBody, decBody, List.nil_append, dpure_eval]
  | Tauth a u an nu =>
    simp only [wfBodyClaimed, Bool.and_eq_true, isU32, decide_eq_true_eq] at hwf
    obtain ⟨⟨⟨h1, h2⟩, h3⟩, h4⟩ := hwf
    simp only [Fcall.typeOf, encBody, decBody, List.append_assoc,
      dbind_decU32 h1, dbind_decString h2, dbind_decString h3, dbind_decU32 h4,
      dpure_eval]
  | Rauth q =>
    simp only [wfBodyClaimed] at hwf
    simp only [Fcall.typeOf, encBody, decBody, dbind_decQid hwf, dpure_eval]
  | Tattach f a u an nu =>
    simp only [wfBodyClaimed, Bool.and_eq_true, isU32, decide_eq_true_eq] at hwf
    obtain ⟨⟨⟨⟨h1, h2⟩, h3⟩, h4⟩, h5⟩ := hwf
    simp only [Fcall.typeOf, encBody, decBody, List.append_assoc,
      dbind_decU32 h1, dbind_decU32 h2, dbind_decString h3, dbind_decString h4,
      dbind_decU32 h5, dpure_eval]
  | Rattach q =>
    simp only [wfBodyClaimed] at hwf
    simp only [Fcall.typeOf, encBody, decBody, dbind_decQid hwf, dpure_eval]
  | Tversion ms v =>
    simp only [wfBodyClaimed, Bool.and_eq_true, isU32, decide_eq_true_eq] at hwf
    obtain ⟨h1, h2⟩ := hwf
    simp only [Fcall.typeOf, encBody, decBody, List.append_assoc,
      dbind_decU32 h1, dbind_decString h2, dpure_eval]
  | Rversion ms v =>
    simp only [wfBodyClaimed, Bool.and_eq_true, isU32, decide_eq_true_eq] at hwf
    obtain ⟨h1, h2⟩ := hwf
    simp only [Fcall.typeOf, encBody, decBody, List.append_assoc,
      dbind_decU32 h1, dbind_decString h2, dpure_eval]
  | Tflush ot =>
    simp only [wfBodyClaimed, isU16, decide_eq_true_eq] at hwf
    simp only [Fcall.typeOf, encBody, decBody, dbind_decU16 hwf, dpure_eval]
  | Rflush =>
    simp only [Fcall.typeOf, encBody, decBody, List.nil_append, dpure_eval]
  | Twalk f nf ws =>
    simp only [wfBodyClaimed, Bool.and_eq_true, isU32, decide_eq_true_eq] at hwf
    obtain ⟨⟨h1, h2⟩, h3⟩ := hwf
    simp only [lenBounds, decide_eq_true_eq] at hlen
    simp only [Fcall.typeOf, encBody, decBody, List.append_assoc,
      dbind_decU32 h1, dbind_decU32 h2, dbind_decVecString hlen h3, dpure_eval]
  | Rwalk qs =>
    simp only [wfBodyClaimed] at hwf
    simp only [lenBounds, decide_eq_true_eq] at hlen
    simp only [Fcall.typeOf, encBody, decBody, dbind_decVecQid hlen hwf, dpure_eval]
  | Tread f o c =>
    simp only [wfBodyClaimed, Bool.and_eq_true, isU32, isU64, decide_eq_true_eq] at hwf
    obtain ⟨⟨h1, h2⟩, h3⟩ := hwf
    simp only [Fcall.typeOf, encBody, decBody, List.append_assoc,
      dbind_decU32 h1, dbind_decU64 h2, dbind_decU32 h3, dpure_eval]
  | Rread d =>
    simp only [lenBounds, decide_eq_true_eq] at hlen
    simp only [Fcall.typeOf, encBody, decBody, dbind_decData hlen, dpure_eval]
  | Twrite f o d =>
    simp only [wfBodyClaimed, Bool.and_eq_true, isU32, isU64, decide_eq_true_eq] at hwf
    obtain ⟨⟨h1, h2⟩, h3⟩ := hwf
    simp only [lenBounds, decide_eq_true_eq] at hlen
    simp only [Fcall.typeOf, encBody, decBody, List.append_assoc,
      dbind_decU32 h1, dbind_decU64 h2, dbind_decData hlen, dpure_eval]
  | Rwrite c =>
    simp only [wfBodyClaimed, isU32, decide_eq_true_eq] at hwf
    simp only [Fcall.typeOf, encBody, decBody, dbind_decU32 hwf, dpure_eval]
  | Tclunk f =>
    simp only [wfBodyClaimed, isU32, decide_eq_true_eq] at hwf
    simp only [Fcall.typeOf, encBody, decBody, dbind_decU32 hwf, dpure_eval]
  | Rclunk =>
    simp only [Fcall.typeOf, encBody, decBody, List.nil_append, dpure_eval]
  | Tremove f =>
    simp only [wfBodyClaimed, isU32, decide_eq_true_eq] at hwf
    simp only [Fcall.typeOf, encBody, decBody, dbind_decU32 hwf, dpure_eval]
  | Rremove =>
    simp only [Fcall.typeOf, encBody, decBody, List.nil_append, dpure_eval]

/-! ## Top-level frame lemmas -/

theorem MsgType.toU8_lt (t : MsgType) : t.toU8 < 256 := by
  cases t <;> decide

theorem MsgType.fromU8_toU8 (t : MsgType) : MsgType.fromU8 t.toU8 = some t := by
  cases t <;> rfl

theorem Fcall.typeOf_ne_Tlerror (b : Fcall) : b.typeOf ≠ .Tlerror := by
  cases b <;> simp [Fcall.typeOf]

theorem encodeRet_parts (m : Msg) :
    Msg.encodeRet m = 4 + (1 + (2 + (encBody m.body).length)) := by
  simp [Msg.encodeRet, Msg.encodeInner, List.length_append, toLE_length]

theorem wrapSub4 {n : Nat} (h4 : 4 ≤ n) (h32 : n < 2 ^ 32) :
    (n + 2 ^ 32 - 4) % 2 ^ 32 = n - 4 := by
  omega

theorem decMsgBuf_enc (t : MsgType) (tag : Nat) (b : Fcall)
    (ht : t = b.typeOf) (htag : tag < 2 ^ 16) (hwf : wfBodyClaimed b = true)
    (hlen : lenBounds b = true) :
    decMsgBuf (toLE 1 t.toU8 ++ (toLE 2 tag ++ encBody b)) =
      .ok (t, tag, b) := by
  subst ht
  have h8 : (Fcall.typeOf b).toU8 < 256 := MsgType.toU8_lt _
  have hb : encBody b = encBody b ++ [] := by simp
  simp only [decMsgBuf, decU8_enc h8, decU16_enc htag, MsgType.fromU8_toU8,
    if_neg (Fcall.typeOf_ne_Tlerror b)]
  rw [hb, decBody_enc b hwf hlen []]

/-! ## Truncation and stream lemmas -/

theorem decU16_enc_mod (n : Nat) (r : Bytes) :
    decU16 (toLE 2 n ++ r) = .ok (n % 65536, r) := by
  rw [decU16, dbind_ok (readExact_append 2 _ r (toLE_length 2 n)), dpure_eval,
    fromLE_toLE, show 2 ^ (8 * 2) = 65536 from rfl]

theorem dbind_decU16_mod (n : Nat) (k : Nat → DecM β) (r : Bytes) :
    dbind decU16 k (toLE 2 n ++ r) = k (n % 65536) r :=
  dbind_ok (decU16_enc_mod n r)

theorem readExact_of_le {n : Nat} {s : Bytes} (h : n ≤ s.length) :
    readExact n s = .ok (s.take n, s.drop n) := by
  rw [readExact, if_pos h]

theorem readExact_too_long {n : Nat} {s : Bytes} (h : s.length < n) :
    readExact n s = .error .unexpectedEOF := by
  rw [readExact, if_neg (by omega)]

theorem flatten_replicate_pair (n : Nat) :
    (List.replicate n ([0, 0] : Bytes)).flatten = List.replicate (2 * n) 0 := by
  induction n with
  | zero => rfl
  | succ k ih =>
    rw [List.replicate_succ, List.flatten_cons, ih,
      show 2 * (k + 1) = 2 * k + 1 + 1 by omega,
      List.replicate_succ, List.replicate_succ]
    rfl

theorem all_replicate {p : α → Bool} {a : α} (h : p a = true) (n : Nat) :
    (List.replicate n a).all p = true := by
  induction n with
  | zero => rfl
  | succ k ih => rw [List.replicate_succ, List.all_cons, h, ih]; rfl

theorem dbind_err {p : DecM α} {k : α → DecM β} {s : Bytes} {e : DecodeError}
    (h : p s = .error e) : dbind p k s = .error e := by
  simp [dbind, h]

/-! ## Dispatcher lemmas -/

theorem takeFids_miss {A : Type} (l : List Nat) (tbl : FidTable A)
    (h : ∃ f ∈ l, tbl f = none) :
    ∃ t', takeFids l tbl = (.error (), t') := by
  induction l generalizing tbl with
  | nil => simp at h
  | cons f rest ih =>
    obtain ⟨g, hg, hnone⟩ := h
    match hf : tbl f with
    | none => exact ⟨tbl, by rw [takeFids, hf]⟩
    | some fd =>
      have hg' : g ∈ rest := by
        rcases List.mem_cons.mp hg with h1 | h1
        · subst h1; rw [hf] at hnone; cases hnone
        · exact h1
      have hgr : (tableRemove f tbl) g = none := by
        rw [tableRemove]
        split
        · rfl
        · exact hnone
      obtain ⟨t', ht'⟩ := ih (tableRemove f tbl) ⟨g, hg', hgr⟩
      exact ⟨t', by rw [takeFids, hf, ht']⟩

/-! ## Claim theorems -/

/-- C1 (amended): codec round-trip. For every message that is well-formed
in the claim's sense (the `typ` field agrees with the body variant, every
string is valid UTF-8 of at most 65535 bytes, every bit-set field uses
only defined bits, all fields representable in their wire types) and
whose variable-length collections fit their length prefixes with a total
encoded size below `2^32`, decoding the bytes produced by `Msg::encode`
yields the message again with no bytes left over. -/
theorem C1_codec_roundtrip_amended (m : Msg) (h : wfMsg m = true) :
    Msg.decode (Msg.encode m) = .ok (m, []) := by
  simp only [wfMsg, wfMsgClaimed, Bool.and_eq_true, isU16, decide_eq_true_eq] at h
  obtain ⟨⟨⟨⟨hty, htag⟩, hwf⟩, hlen⟩, hsz⟩ := h
  have e1 : Msg.encodeRet m = 4 + m.encodeInner.length := rfl
  have h4 : 4 ≤ Msg.encodeRet m := by omega
  have hbl : (Msg.encodeRet m + 2 ^ 32 - 4) % 2 ^ 32 = m.encodeInner.length := by
    rw [wrapSub4 h4 hsz]; omega
  have hsz' : Msg.encodeRet m < 2 ^ 32 := hsz
  simp only [Msg.encode, Msg.decode, dbind_decU32 hsz', hbl,
    dbind_ok (readExact_exact m.encodeInner.length m.encodeInner rfl)]
  simp only [Msg.encodeInner, List.append_assoc]
  rw [decMsgBuf_enc m.typ m.tag m.body hty htag hwf hlen]

/-- Witness for C1 (amended) at the message of the source's own
round-trip test: `Msg { typ: Rversion, tag: 0xdead, body: Rversion
{ msize: 40, version: "9P2000.L" } }`. -/
theorem C1_codec_roundtrip_amended_witness :
    wfMsg ⟨.Rversion, 0xdead, .Rversion 40 p92000L⟩ = true ∧
    Msg.decode (Msg.encode ⟨.Rversion, 0xdead, .Rversion 40 p92000L⟩) =
      .ok (⟨.Rversion, 0xdead, .Rversion 40 p92000L⟩, []) :=
  ⟨by decide, C1_codec_roundtrip_amended _ (by decide)⟩

/-- C1 counterexample: the claim as frozen is false. The message
`Twalk { fid: 0, newfid: 0, wnames: 65536 copies of "" }` satisfies the
claim's well-formedness (its `typ` agrees, every string is valid UTF-8 of
at most 65535 bytes, no bit-set field is present), yet the encoder writes
the vector count `65536 as u16 = 0`, so decoding the encoding yields
`Twalk { wnames: [] }`, not the original message. -/
theorem C1_codec_roundtrip_counterexample :
    wfMsgClaimed ⟨.Twalk, 0, .Twalk 0 0 (List.replicate 65536 [])⟩ = true ∧
    Msg.decode (Msg.encode ⟨.Twalk, 0, .Twalk 0 0 (List.replicate 65536 [])⟩) ≠
      .ok (⟨.Twalk, 0, .Twalk 0 0 (List.replicate 65536 [])⟩, []) := by
  constructor
  · have hstr : (List.replicate 65536 ([] : Bytes)).all wfStr = true :=
      all_replicate (by decide) 65536
    simp only [wfMsgClaimed, wfBodyClaimed, Bool.and_eq_true, hstr]
    exact ⟨⟨by decide, by decide⟩, ⟨by decide, by decide⟩, trivial⟩
  · have hv : encVec encString (List.replicate 65536 ([] : Bytes)) =
        toLE 2 65536 ++ List.replicate 131072 0 := by
      rw [encVec, List.length_replicate, List.map_replicate,
        show encString ([] : Bytes) = [0, 0] from rfl, flatten_replicate_pair,
        show 2 * 65536 = 131072 from by norm_num]
    have hbody : encBody (.Twalk 0 0 (List.replicate 65536 ([] : Bytes))) =
        toLE 4 0 ++ toLE 4 0 ++ (toLE 2 65536 ++ List.replicate 131072 0) := by
      simp only [encBody]
      rw [hv]
    have hinner : Msg.encodeInner ⟨.Twalk, 0, .Twalk 0 0 (List.replicate 65536 [])⟩ =
        toLE 1 110 ++ (toLE 2 0 ++ (toLE 4 0 ++ (toLE 4 0 ++
          (toLE 2 65536 ++ List.replicate 131072 0)))) := by
      simp only [Msg.encodeInner, MsgType.toU8, hbody, List.append_assoc]
    have hilen : (Msg.encodeInner ⟨.Twalk, 0, .Twalk 0 0 (List.replicate 65536 [])⟩).length
        = 131085 := by
      rw [hinner]
      simp only [List.length_append, toLE_length, List.length_replicate]
    have hret : Msg.encodeRet ⟨.Twalk, 0, .Twalk 0 0 (List.replicate 65536 [])⟩
        = 131089 := by
      rw [Msg.encodeRet, hilen]
    have hvec : ∀ junk : Bytes, decVec decString (toLE 2 65536 ++ junk) =
        .ok ([], junk) := by
      intro junk
      rw [decVec, dbind_decU16_mod 65536, show (65536 : Nat) % 65536 = 0 from by norm_num]
      rfl
    have hbodyDec : ∀ junk : Bytes, decBody .Twalk (toLE 4 0 ++ (toLE 4 0 ++
        (toLE 2 65536 ++ junk))) = .ok (.Twalk 0 0 [], junk) := by
      intro junk
      simp only [decBody, dbind_decU32 (show (0 : Nat) < 2 ^ 32 by norm_num),
        dbind_ok (hvec junk), dpure_eval]
    have hmb : ∀ junk : Bytes, decMsgBuf (toLE 1 110 ++ (toLE 2 0 ++ (toLE 4 0 ++
        (toLE 4 0 ++ (toLE 2 65536 ++ junk))))) =
        .ok (.Twalk, 0, .Twalk 0 0 []) := by
      intro junk
      simp only [decMsgBuf, decU8_enc (show (110 : Nat) < 256 by norm_num),
        decU16_enc (show (0 : Nat) < 2 ^ 16 by norm_num),
        show MsgType.fromU8 110 = some MsgType.Twalk from rfl,
        if_neg (show ¬(MsgType.Twalk = MsgType.Tlerror) by decide), hbodyDec junk]
    have hilen' : (toLE 1 110 ++ (toLE 2 0 ++ (toLE 4 0 ++ (toLE 4 0 ++
        (toLE 2 65536 ++ List.replicate 131072 0))))).length = 131085 := by
      rw [← hinner]; exact hilen
    have hdec : Msg.decode (Msg.encode ⟨.Twalk, 0, .Twalk 0 0 (List.replicate 65536 [])⟩)
        = .ok (⟨.Twalk, 0, .Twalk 0 0 []⟩, []) := by
      rw [Msg.encode, hret, hinner]
      simp only [Msg.decode, dbind_decU32 (show (131089 : Nat) < 2 ^ 32 by norm_num),
        show ((131089 : Nat) + 2 ^ 32 - 4) % 2 ^ 32 = 131085 from by norm_num,
        dbind_ok (readExact_exact 131085 _ hilen'),
        hmb (List.replicate 131072 0)]
    intro heq
    rw [hdec] at heq
    have h1 := Except.ok.inj heq
    have h2 := congrArg
      (fun p : Msg × Bytes =>
        match p.1.body with
        | .Twalk _ _ ws => ws.length
        | _ => 0) h1
    simp only [List.length_replicate, List.length_nil] at h2
    omega

/-- C2: the default `version` handshake. For every msize and version
string, the default `rversion` callback answers `Ok(Rversion)` echoing
the client's msize and version string exactly when the requested version
equals `"9P2000.L"`, and `Err(No(EPROTONOSUPPORT))` for every other
version string. -/
theorem C2_default_rversion (ms : Nat) (ver : Bytes) :
    (ver = p92000L → rversionDefault ms ver = .ok (.Rversion ms ver)) ∧
    (ver ≠ p92000L → rversionDefault ms ver = .error (.No EPROTONOSUPPORT)) := by
  constructor
  · intro h; simp [rversionDefault, h]
  · intro h; simp [rversionDefault, h]

/-- Witness for C2 at the handshake scenario of the spec: version
`"9P2000.L"` is accepted with the client's msize 8192 echoed; version
`"9P2000"` is rejected with `EPROTONOSUPPORT`. -/
theorem C2_default_rversion_witness :
    rversionDefault 8192 p92000L = .ok (.Rversion 8192 p92000L) ∧
    rversionDefault 8192 [57, 80, 50, 48, 48, 48] = .error (.No EPROTONOSUPPORT) :=
  ⟨(C2_default_rversion 8192 p92000L).1 rfl,
   (C2_default_rversion 8192 [57, 80, 50, 48, 48, 48]).2 (by decide)⟩

/-- C7: errno mapping totality and coverage. `errno_from_ioerror` is a
total function; with no raw OS errno attached it maps each listed error
kind to the listed errno (with `EIO` for the default arm, here `Other`
and `UnexpectedEof`), and whenever a raw OS errno is attached that raw
value is returned regardless of the kind. `Error::errno` exposes the
errno for both error forms. -/
theorem C7_errno_mapping :
    (∀ m, errno_from_ioerror ⟨.NotFound, m, none⟩ = ENOENT) ∧
    (∀ m, errno_from_ioerror ⟨.PermissionDenied, m, none⟩ = EPERM) ∧
    (∀ m, errno_from_ioerror ⟨.ConnectionRefused, m, none⟩ = ECONNREFUSED) ∧
    (∀ m, errno_from_ioerror ⟨.ConnectionReset, m, none⟩ = ECONNRESET) ∧
    (∀ m, errno_from_ioerror ⟨.ConnectionAborted, m, none⟩ = ECONNABORTED) ∧
    (∀ m, errno_from_ioerror ⟨.NotConnected, m, none⟩ = ENOTCONN) ∧
    (∀ m, errno_from_ioerror ⟨.AddrInUse, m, none⟩ = EADDRINUSE) ∧
    (∀ m, errno_from_ioerror ⟨.AddrNotAvailable, m, none⟩ = EADDRNOTAVAIL) ∧
    (∀ m, errno_from_ioerror ⟨.BrokenPipe, m, none⟩ = EPIPE) ∧
    (∀ m, errno_from_ioerror ⟨.AlreadyExists, m, none⟩ = EALREADY) ∧
    (∀ m, errno_from_ioerror ⟨.WouldBlock, m, none⟩ = EAGAIN) ∧
    (∀ m, errno_from_ioerror ⟨.InvalidInput, m, none⟩ = EINVAL) ∧
    (∀ m, errno_from_ioerror ⟨.InvalidData, m, none⟩ = EINVAL) ∧
    (∀ m, errno_from_ioerror ⟨.TimedOut, m, none⟩ = ETIMEDOUT) ∧
    (∀ m, errno_from_ioerror ⟨.WriteZero, m, none⟩ = EAGAIN) ∧
    (∀ m, errno_from_ioerror ⟨.Interrupted, m, none⟩ = EINTR) ∧
    (∀ m, errno_from_ioerror ⟨.Other, m, none⟩ = EIO) ∧
    (∀ m, errno_from_ioerror ⟨.UnexpectedEof, m, none⟩ = EIO) ∧
    (∀ k m n, errno_from_ioerror ⟨k, m, some n⟩ = n) ∧
    (∀ e, Error.errno (.Io e) = errno_from_ioerror e) ∧
    (∀ n, Error.errno (.No n) = n) :=
  ⟨fun _ => rfl, fun _ => rfl, fun _ => rfl, fun _ => rfl, fun _ => rfl,
   fun _ => rfl, fun _ => rfl, fun _ => rfl, fun _ => rfl, fun _ => rfl,
   fun _ => rfl, fun _ => rfl, fun _ => rfl, fun _ => rfl, fun _ => rfl,
   fun _ => rfl, fun _ => rfl, fun _ => rfl, fun _ _ _ => rfl,
   fun _ => rfl, fun _ => rfl⟩

/-- C8: frame size consistency. For every message whose total encoded
size fits the 4-byte prefix, the bytes written are exactly as many as the
`usize` count `Msg::encode` returns, and the 4-byte little-endian size
prefix decodes to that total length (prefix included). -/
theorem C8_frame_size (m : Msg) (h : Msg.encodeRet m < 2 ^ 32) :
    (Msg.encode m).length = Msg.encodeRet m ∧
    fromLE ((Msg.encode m).take 4) = (Msg.encode m).length := by
  have hlen : (Msg.encode m).length = Msg.encodeRet m := by
    rw [Msg.encode, List.length_append, toLE_length, Msg.encodeRet]
  refine ⟨hlen, ?_⟩
  have htake : (Msg.encode m).take 4 = toLE 4 (Msg.encodeRet m) := by
    rw [Msg.encode, List.take_left' (toLE_length 4 (Msg.encodeRet m))]
  rw [htake, fromLE_toLE_of_lt (show Msg.encodeRet m < 2 ^ (8 * 4) by simpa using h)]
  exact hlen.symm

/-- Witness for C8 at the message `Msg { typ: Rclunk, tag: 0 }`. -/
theorem C8_frame_size_witness :
    Msg.encodeRet ⟨.Rclunk, 0, .Rclunk⟩ < 2 ^ 32 ∧
    (Msg.encode ⟨.Rclunk, 0, .Rclunk⟩).length = Msg.encodeRet ⟨.Rclunk, 0, .Rclunk⟩ ∧
    fromLE ((Msg.encode ⟨.Rclunk, 0, .Rclunk⟩).take 4) =
      (Msg.encode ⟨.Rclunk, 0, .Rclunk⟩).length :=
  ⟨by decide, C8_frame_size _ (by decide)⟩

/-- C9: string length truncation. `String::encode` writes `len as u16`
(the length modulo 65536) as the 2-byte prefix and then all `len` bytes,
and never fails, for strings of any length; consequently the decoder
recovers the string only when its length is at most 65535 bytes (and the
bytes are valid UTF-8), which is proved in the last conjunct. -/
theorem C9_string_truncation (s r : Bytes) :
    fromLE ((encString s).take 2) = s.length % 65536 ∧
    (encString s).drop 2 = s ∧
    (s.length ≤ 65535 → isValidUtf8 s = true →
      decString (encString s ++ r) = .ok (s, r)) := by
  refine ⟨?_, ?_, ?_⟩
  · rw [encString, List.take_left' (toLE_length 2 s.length), fromLE_toLE,
      show (2 : Nat) ^ (8 * 2) = 65536 from by norm_num]
  · rw [encString, List.drop_left' (toLE_length 2 s.length)]
  · intro h1 h2
    rw [encString, List.append_assoc, decString,
      dbind_decU16 (by omega) _ (s ++ r),
      dbind_ok (readExact_append s.length s r rfl), h2]
    rfl

/-- Witness for C9 at the one-byte string `"a"`. -/
theorem C9_string_truncation_witness :
    fromLE ((encString [97]).take 2) = [97].length % 65536 ∧
    decString (encString [97] ++ []) = .ok ([97], []) :=
  ⟨(C9_string_truncation [97] []).1,
   (C9_string_truncation [97] []).2.2 (by decide) (by decide)⟩

/-- C10: unguarded size-prefix subtraction. For every input stream whose
4-byte size prefix encodes a value below 4, the `size - 4` subtraction in
`Msg::decode` wraps around to at least `2^32 - 4`, and (for any stream
shorter than `2^32` bytes) the decoder consequently fails with
`UnexpectedEOF` while trying to read that enormous body, instead of
reporting a bad-size protocol error. -/
theorem C10_size_underflow (s : Bytes) (h4 : 4 ≤ s.length)
    (hlt : fromLE (s.take 4) < 4) (hlen : s.length < 2 ^ 32) :
    2 ^ 32 - 4 ≤ (fromLE (s.take 4) + 2 ^ 32 - 4) % 2 ^ 32 ∧
    Msg.decode s = .error .unexpectedEOF := by
  have hre : readExact 4 s = .ok (s.take 4, s.drop 4) := readExact_of_le h4
  have hd32 : decU32 s = .ok (fromLE (s.take 4), s.drop 4) := by
    rw [decU32, dbind_ok hre]; rfl
  have hmod : (fromLE (s.take 4) + 2 ^ 32 - 4) % 2 ^ 32 =
      fromLE (s.take 4) + 2 ^ 32 - 4 :=
    Nat.mod_eq_of_lt (by omega)
  have hre2 : readExact (fromLE (s.take 4) + 2 ^ 32 - 4) (s.drop 4) =
      .error .unexpectedEOF :=
    readExact_too_long (by rw [List.length_drop]; omega)
  refine ⟨by omega, ?_⟩
  simp only [Msg.decode, dbind_ok hd32, hmod, dbind_err hre2]

/-- Witness for C10 at the 9-byte stream whose size prefix is 3. -/
theorem C10_size_underflow_witness :
    2 ^ 32 - 4 ≤
      (fromLE (([3, 0, 0, 0, 9, 9, 9, 9, 9] : Bytes).take 4) + 2 ^ 32 - 4) % 2 ^ 32 ∧
    Msg.decode [3, 0, 0, 0, 9, 9, 9, 9, 9] = .error .unexpectedEOF :=
  C10_size_underflow [3, 0, 0, 0, 9, 9, 9, 9, 9] (by decide) (by decide) (by decide)

/-- C3 (code bug): after the spec's scenario — `Tattach { tag: 1, fid: 0,
afid: NOFID, uname: "u", aname: "/", n_uname: 0 }` dispatched to the
default backend, whose `rattach` returns `Err(No(EOPNOTSUPP))` — the
dispatcher does reply `Rlerror { ecode: EOPNOTSUPP }`, but it still
inserts fid 0 (with `aux: None`) into the fid table, because
`dispatch_once` inserts the `newfids` unconditionally, also on the error
path; the claim (and spec scenario 2) require fid 0 to be absent. -/
theorem C3_attach_error_inserts_fid :
    (dispatchOnce ⟨.Tattach, 1, .Tattach 0 4294967295 [117] [47] 0⟩
      (defaultFilesystem Unit) emptyTable).1 = .ok (.Rlerror EOPNOTSUPP, 1) ∧
    (dispatchOnce ⟨.Tattach, 1, .Tattach 0 4294967295 [117] [47] 0⟩
      (defaultFilesystem Unit) emptyTable).2 0 = some ⟨0, none⟩ :=
  ⟨rfl, rfl⟩

/-- C4 counterexample: the claim as stated is false. Dispatching
`Tclunk { tag: 7, fid: 0 }` on an empty fid table does not produce an
`Rlerror { ENOENT }` reply: `dispatch_once` returns
`Err(Io(NotFound, "No associated Fid"))` instead. -/
theorem C4_fid_not_found_counterexample :
    (dispatchOnce ⟨.Tclunk, 7, .Tclunk 0⟩ (defaultFilesystem Unit) emptyTable).1 =
      .error (.Io ⟨.NotFound, "No associated Fid", none⟩) ∧
    (dispatchOnce ⟨.Tclunk, 7, .Tclunk 0⟩ (defaultFilesystem Unit) emptyTable).1 ≠
      .ok (.Rlerror ENOENT, 7) := by
  refine ⟨rfl, fun h => ?_⟩
  rw [show (dispatchOnce ⟨.Tclunk, 7, .Tclunk 0⟩ (defaultFilesystem Unit) emptyTable).1 =
    .error (.Io ⟨.NotFound, "No associated Fid", none⟩) from rfl] at h
  exact Except.noConfusion h

/-- C4 (amended): for every decoded request that references a fid absent
from the fid table, `dispatch_once` produces no reply at all — it returns
`Err(Io(NotFound))` (whose errno is ENOENT) — and the connection's
dispatch loop therefore terminates without processing any further
request. -/
theorem C4_fid_not_found_amended {A : Type} (msg : Msg) (fs : Filesystem A)
    (tbl : FidTable A) (rest : List Msg)
    (h : ∃ f ∈ msg.body.fids, tbl f = none) :
    (dispatchOnce msg fs tbl).1 =
      .error (.Io ⟨.NotFound, "No associated Fid", none⟩) ∧
    dispatchLoop fs tbl (msg :: rest) = [] := by
  obtain ⟨t', ht'⟩ := takeFids_miss msg.body.fids tbl h
  have h2 : dispatchOnce msg fs tbl =
      (.error (.Io ⟨.NotFound, "No associated Fid", none⟩), t') := by
    simp only [dispatchOnce, ht']
  exact ⟨by rw [h2], by simp [dispatchLoop, h2]⟩

/-- Witness for C4 (amended) at `Tclunk { tag: 7, fid: 0 }` on an empty
table. -/
theorem C4_fid_not_found_amended_witness :
    (dispatchOnce ⟨.Tclunk, 7, .Tclunk 0⟩ (defaultFilesystem Unit) emptyTable).1 =
      .error (.Io ⟨.NotFound, "No associated Fid", none⟩) ∧
    dispatchLoop (defaultFilesystem Unit) emptyTable [⟨.Tclunk, 7, .Tclunk 0⟩] = [] :=
  C4_fid_not_found_amended ⟨.Tclunk, 7, .Tclunk 0⟩ (defaultFilesystem Unit)
    emptyTable [] ⟨0, by decide, rfl⟩

/-- C5 (code bug): a `Tremove { tag: 3, fid: 5 }` whose `rremove`
callback returns Ok is answered with `Rremove`, but the fid is reinserted
into the table — `dispatch_once` performs `fids.clear()` only in the
`Tclunk` arm. The same backend and table under `Tclunk` do drop the fid,
exhibiting the divergence between the two operations that the claim (and
the 9P protocol, in which remove clunks implicitly) says must behave
alike. -/
theorem C5_remove_keeps_fid :
    (dispatchOnce ⟨.Tremove, 3, .Tremove 5⟩ (okClunkRemoveFs Unit)
      (tableInsert 5 ⟨5, none⟩ emptyTable)).1 = .ok (.Rremove, 3) ∧
    (dispatchOnce ⟨.Tremove, 3, .Tremove 5⟩ (okClunkRemoveFs Unit)
      (tableInsert 5 ⟨5, none⟩ emptyTable)).2 5 = some ⟨5, none⟩ ∧
    (dispatchOnce ⟨.Tclunk, 4, .Tclunk 5⟩ (okClunkRemoveFs Unit)
      (tableInsert 5 ⟨5, none⟩ emptyTable)).2 5 = none :=
  ⟨rfl, rfl, rfl⟩

/-- C6: clunk error retention. For every backend, table and tag, if the
table maps fid `f` to an entry and the backend's `rclunk` on that entry
returns `Err(e)` (leaving the entry's aux at `a'`), the dispatcher
replies `Rlerror { ecode: e.errno() }` on the same tag and reinserts the
entry — the fid is still present in the table afterwards, with exactly
the aux the callback left behind. -/
theorem C6_clunk_error_retention {A : Type} (fs : Filesystem A)
    (tbl : FidTable A) (tag f : Nat) (fd : Fid A) (e : Error) (a' : Option A)
    (hf : tbl f = some fd) (hfid : fd.fid = f)
    (hcl : fs.rclunk fd = (.error e, a')) :
    (dispatchOnce ⟨.Tclunk, tag, .Tclunk f⟩ fs tbl).1 =
      .ok (.Rlerror e.errno, tag) ∧
    (dispatchOnce ⟨.Tclunk, tag, .Tclunk f⟩ fs tbl).2 f = some ⟨f, a'⟩ := by
  have hd : dispatchOnce ⟨.Tclunk, tag, .Tclunk f⟩ fs tbl =
      (.ok (.Rlerror e.errno, tag),
        tableInsert f ⟨f, a'⟩ (tableRemove f tbl)) := by
    simp only [dispatchOnce, Fcall.fids, Fcall.newfids, takeFids, hf, hcl,
      List.map_nil, finishDispatch, List.append_nil, List.foldl_cons,
      List.foldl_nil, hfid]
  rw [hd]
  exact ⟨rfl, by simp [tableInsert]⟩

/-- Witness for C6: the default backend's `rclunk` (which errs with
`EOPNOTSUPP`) dispatched on `Tclunk { tag: 2, fid: 9 }` with fid 9 in the
table. -/
theorem C6_clunk_error_retention_witness :
    (dispatchOnce ⟨.Tclunk, 2, .Tclunk 9⟩ (defaultFilesystem Unit)
      (tableInsert 9 ⟨9, none⟩ emptyTable)).1 =
      .ok (.Rlerror (Error.No EOPNOTSUPP).errno, 2) ∧
    (dispatchOnce ⟨.Tclunk, 2, .Tclunk 9⟩ (defaultFilesystem Unit)
      (tableInsert 9 ⟨9, none⟩ emptyTable)).2 9 = some ⟨9, none⟩ :=
  C6_clunk_error_retention (defaultFilesystem Unit)
    (tableInsert 9 ⟨9, none⟩ emptyTable) 2 9 ⟨9, none⟩ (.No EOPNOTSUPP) none
    rfl rfl rfl

end Rs9p
